import Mathlib

/-!
Verification development for the TDnet disclosure screening app
(`app.py`, `src/tdnet.py`, `src/analyzer.py`, `src/storage.py`).

Python strings are modelled as lists of characters (`PyStr`), Python byte
streams as lists of byte values (`List Nat`), JSON values (Python dicts
produced by `json.loads` / consumed by `json.dumps`) as the mutual
inductive type `J` / `JArr` / `JObj` below.  Machine integers do not
overflow in any of the modelled code paths (sizes and timestamps), so
`Nat` / `Int` are used directly.  Network and LLM effects are modelled as
explicit oracle values ("worlds") passed to the embedded functions.
-/

/-- Python `str` modelled as a list of characters. -/
abbrev PyStr := List Char

/-- Python `str.strip()` (no arguments): drop leading and trailing whitespace. -/
def pyStrip (s : PyStr) : PyStr :=
  ((s.dropWhile Char.isWhitespace).reverse.dropWhile Char.isWhitespace).reverse

/-- Python `str.lower()`, restricted to ASCII case mapping (the characters
appearing in the modelled URL / title comparisons are ASCII or Japanese,
where `toLower` is the identity). -/
def pyLower (s : PyStr) : PyStr := s.map Char.toLower

/-- `listStartsWith s p` : does `s` start with `p`? (Python `str.startswith`). -/
def listStartsWith : PyStr → PyStr → Bool
  | _, [] => true
  | [], _ :: _ => false
  | c :: s, p :: ps => c = p && listStartsWith s ps

/-- Python `p in s` substring test. -/
def containsSub : PyStr → PyStr → Bool
  | s, p =>
    match s with
    | [] => listStartsWith [] p
    | _ :: t => listStartsWith s p || containsSub t p

/-- Python `str.endswith`. -/
def listEndsWith (s p : PyStr) : Bool := listStartsWith s.reverse p.reverse

/-- Python `str.strip(chars)` for a single character argument
(used by the code as `raw.strip("`")`). -/
def pyStripChar (s : PyStr) (ch : Char) : PyStr :=
  ((s.dropWhile (· = ch)).reverse.dropWhile (· = ch)).reverse

/-- Python `str.replace(pat, repl, 1)` for a non-empty pattern: remove/replace
the first occurrence only. -/
def replaceFirst : PyStr → PyStr → PyStr → PyStr
  | [], _, _ => []
  | c :: t, pat, repl =>
    if listStartsWith (c :: t) pat then repl ++ (c :: t).drop pat.length
    else c :: replaceFirst t pat repl

/-- Python `str.replace("Z", repl)` (single-character pattern, all occurrences). -/
def replaceAllChar (s : PyStr) (ch : Char) (repl : PyStr) : PyStr :=
  s.foldr (fun c acc => (if c = ch then repl else [c]) ++ acc) []

/-- ASCII decimal digit test; models Python `str.isdigit` restricted to ASCII
digits (the security codes and URL characters handled by the program are
ASCII). -/
def isAsciiDigit (c : Char) : Bool := '0' ≤ c && c ≤ '9'

/-- `isdigit` over a whole string: non-empty and all digits (Python semantics:
`"".isdigit()` is `False`). -/
def pyIsDigit (s : PyStr) : Bool := !s.isEmpty && s.all isAsciiDigit

/-- The decimal digit character for `d < 10` (and a non-digit placeholder
otherwise, never reached on the modelled inputs). -/
def digitChar : Nat → Char
  | 0 => '0' | 1 => '1' | 2 => '2' | 3 => '3' | 4 => '4'
  | 5 => '5' | 6 => '6' | 7 => '7' | 8 => '8' | 9 => '9'
  | _ => '*'

/-- Numeric value of a decimal digit character. -/
def charVal (c : Char) : Nat := c.toNat - 48

/-- Little-endian decimal digits of `n`, with explicit fuel (the fuel is
instantiated with `n` itself, which always suffices). -/
def digitsLE : Nat → Nat → List Nat
  | 0, _ => []
  | _ + 1, 0 => []
  | f + 1, n + 1 => (n + 1) % 10 :: digitsLE f ((n + 1) / 10)

/-- Decimal rendering of a natural number (Python `str(n)` for `n ≥ 0`). -/
def natToChars (n : Nat) : PyStr :=
  if n = 0 then ['0'] else ((digitsLE n n).map digitChar).reverse

/-- Decimal rendering of an integer (Python `str(i)`). -/
def intToChars (i : Int) : PyStr :=
  if i < 0 then '-' :: natToChars i.natAbs else natToChars i.toNat

mutual
/-- JSON values / Python `json`-compatible objects. Numbers are modelled as
integers (the payload fields exercised by the claims are integral or null). -/
inductive J where
  | null : J
  | bool : Bool → J
  | num : Int → J
  | str : PyStr → J
  | arr : JArr → J
  | obj : JObj → J
  deriving DecidableEq
/-- JSON arrays (spelled out to keep all recursion structural). -/
inductive JArr where
  | nil : JArr
  | cons : J → JArr → JArr
  deriving DecidableEq
/-- JSON objects: association lists in insertion order (Python dicts preserve
insertion order and have unique keys). -/
inductive JObj where
  | nil : JObj
  | cons : PyStr → J → JObj → JObj
  deriving DecidableEq
end

/-- Python dict lookup `o.get(k)` (first matching key). -/
def JObj.lookup : JObj → PyStr → Option J
  | .nil, _ => none
  | .cons k v t, key => if k = key then some v else t.lookup key

/-- Python dict assignment `o[k] = v`: replace in place if the key exists,
else append (insertion order semantics). -/
def JObj.set : JObj → PyStr → J → JObj
  | .nil, k, v => .cons k v .nil
  | .cons k0 v0 t, k, v => if k0 = k then .cons k0 v t else .cons k0 v0 (t.set k v)

/-- Python truthiness of a JSON value (`bool(x)`). -/
def J.truthy : J → Bool
  | .null => false
  | .bool b => b
  | .num n => n ≠ 0
  | .str s => !s.isEmpty
  | .arr .nil => false
  | .arr (.cons _ _) => true
  | .obj .nil => false
  | .obj (.cons _ _ _) => true

/-- `o.get(k)` with Python's `None` default, as a `J` value. -/
def jGet (o : JObj) (k : PyStr) : J := (o.lookup k).getD .null

/-- Python `a or b` on JSON values. -/
def pyOr (a b : J) : J := if a.truthy then a else b

/-- Python `str(x)` on a JSON value. Containers are rendered via the JSON
serializer as an approximation of `repr`; the modelled claims only apply
`str` to strings, numbers, booleans and `None`. -/
def escChar (c : Char) : PyStr := if c = '"' ∨ c = '\\' then ['\\', c] else [c]

/-- Escaped JSON rendering of string contents (escapes `"` and `\`; the
payloads written by this program contain no control characters). -/
def escString : PyStr → PyStr
  | [] => []
  | c :: t => escChar c ++ escString t

mutual
/-- `json.dumps` (compact separators; the modelled store round-trips through
`serJ` and `parseCore`, so only mutual consistency matters). -/
def serJ : J → PyStr
  | .null => 'n' :: 'u' :: 'l' :: 'l' :: []
  | .bool true => 't' :: 'r' :: 'u' :: 'e' :: []
  | .bool false => 'f' :: 'a' :: 'l' :: 's' :: 'e' :: []
  | .num i => intToChars i
  | .str s => '"' :: (escString s ++ ['"'])
  | .arr a => '[' :: (serArr a ++ [']'])
  | .obj o => '{' :: (serObj o ++ ['}'])
/-- Serialize array elements, comma-separated. -/
def serArr : JArr → PyStr
  | .nil => []
  | .cons v .nil => serJ v
  | .cons v (.cons w t) => serJ v ++ ',' :: serArr (.cons w t)
/-- Serialize object entries, comma-separated. -/
def serObj : JObj → PyStr
  | .nil => []
  | .cons k v .nil => '"' :: (escString k ++ '"' :: ':' :: serJ v)
  | .cons k v (.cons k2 v2 t) =>
      ('"' :: (escString k ++ '"' :: ':' :: serJ v)) ++ ',' :: serObj (.cons k2 v2 t)
end

/-- Python `str(x)` on a JSON value (see `serJ` note). -/
def pyStrOf : J → PyStr
  | .str s => s
  | .null => ['N', 'o', 'n', 'e']
  | .bool true => ['T', 'r', 'u', 'e']
  | .bool false => ['F', 'a', 'l', 's', 'e']
  | .num i => intToChars i
  | .arr a => serJ (.arr a)
  | .obj o => serJ (.obj o)

/-- Parse the body of a JSON string literal (after the opening quote),
returning the contents and the remaining input. -/
def parseStrBody : List Char → Option (PyStr × List Char)
  | [] => none
  | c :: r =>
    if c = '"' then some ([], r)
    else if c = '\\' then
      match r with
      | [] => none
      | e :: r2 =>
        if e = '"' ∨ e = '\\' then
          match parseStrBody r2 with
          | some (s, rest) => some (e :: s, rest)
          | none => none
        else none
    else
      match parseStrBody r with
      | some (s, rest) => some (c :: s, rest)
      | none => none

/-- Numeric value of a string of decimal digit characters (most significant
first). -/
def digitsVal (ds : List Char) : Nat := ds.foldl (fun a c => a * 10 + charVal c) 0

/-- Parser mode: a JSON value, the items of a non-empty array, or the entries
of a non-empty object. -/
inductive PMode where
  | value : PMode
  | arrItems : PMode
  | objItems : PMode

/-- Parser result, tagged by mode. -/
inductive PRes where
  | v : J → List Char → PRes
  | la : JArr → List Char → PRes
  | lo : JObj → List Char → PRes

/-- One step of the value parser; `rec` is the recursive entry point at the
next-smaller fuel. Non-recursive so that it unfolds definitionally. -/
def parseValueAux (rec : PMode → List Char → Option PRes) :
    List Char → Option PRes
  | [] => none
  | c :: r =>
    if c = 'n' then
      match r with
      | 'u' :: 'l' :: 'l' :: r2 => some (.v .null r2)
      | _ => none
    else if c = 't' then
      match r with
      | 'r' :: 'u' :: 'e' :: r2 => some (.v (.bool true) r2)
      | _ => none
    else if c = 'f' then
      match r with
      | 'a' :: 'l' :: 's' :: 'e' :: r2 => some (.v (.bool false) r2)
      | _ => none
    else if c = '"' then
      match parseStrBody r with
      | some (s2, r2) => some (.v (.str s2) r2)
      | none => none
    else if c = '[' then
      match r with
      | [] => none
      | c2 :: r2 =>
        if c2 = ']' then some (.v (.arr .nil) r2)
        else
          match rec .arrItems (c2 :: r2) with
          | some (.la xs r3) => some (.v (.arr xs) r3)
          | _ => none
    else if c = '{' then
      match r with
      | [] => none
      | c2 :: r2 =>
        if c2 = '}' then some (.v (.obj .nil) r2)
        else
          match rec .objItems (c2 :: r2) with
          | some (.lo xs r3) => some (.v (.obj xs) r3)
          | _ => none
    else if c = '-' then
      match r.takeWhile isAsciiDigit with
      | [] => none
      | d :: ds =>
          some (.v (.num (-(digitsVal (d :: ds) : Int))) (r.dropWhile isAsciiDigit))
    else if isAsciiDigit c then
      some (.v (.num (digitsVal ((c :: r).takeWhile isAsciiDigit)))
        ((c :: r).dropWhile isAsciiDigit))
    else none

/-- One step of the array-items parser (items of a non-empty array, including
the closing bracket). -/
def parseArrAux (rec : PMode → List Char → Option PRes) (s : List Char) :
    Option PRes :=
  match rec .value s with
  | some (.v v r) =>
    match r with
    | [] => none
    | c :: r2 =>
      if c = ',' then
        match rec .arrItems r2 with
        | some (.la t r3) => some (.la (.cons v t) r3)
        | _ => none
      else if c = ']' then some (.la (.cons v .nil) r2)
      else none
  | _ => none

/-- One step of the object-entries parser (entries of a non-empty object,
including the closing brace). -/
def parseObjAux (rec : PMode → List Char → Option PRes) :
    List Char → Option PRes
  | [] => none
  | c :: r =>
    if c = '"' then
      match parseStrBody r with
      | some (k, r1) =>
        match r1 with
        | ':' :: r2 =>
          match rec .value r2 with
          | some (.v v r3) =>
            match r3 with
            | [] => none
            | c2 :: r4 =>
              if c2 = ',' then
                match rec .objItems r4 with
                | some (.lo t r5) => some (.lo (.cons k v t) r5)
                | _ => none
              else if c2 = '}' then some (.lo (.cons k v .nil) r4)
              else none
          | _ => none
        | _ => none
      | none => none
    else none

/-- Fuel-indexed JSON parser (`json.loads` on the grammar subset produced by
`serJ`, failing on everything else). Structural on the fuel so that the
kernel can evaluate it on concrete inputs. -/
def parseCore : Nat → PMode → List Char → Option PRes
  | 0, _, _ => none
  | f + 1, .value, s => parseValueAux (parseCore f) s
  | f + 1, .arrItems, s => parseArrAux (parseCore f) s
  | f + 1, .objItems, s => parseObjAux (parseCore f) s

/-- `json.loads` on a whole input: parse one value and require the input to be
exhausted. -/
def jsonLoads (s : List Char) : Option J :=
  match parseCore (2 * s.length + 1) .value s with
  | some (.v v rest) => if rest = [] then some v else none
  | _ => none

/-- `json.dumps`. -/
def jsonDumps (v : J) : PyStr := serJ v

/-! ### Round-trip of `jsonDumps` / `jsonLoads` -/

mutual
/-- Structural size of a JSON value, used as parser fuel. -/
def szJ : J → Nat
  | .null => 1
  | .bool _ => 1
  | .num _ => 1
  | .str _ => 1
  | .arr a => szA a + 1
  | .obj o => szO o + 1
/-- Structural size of a JSON array. -/
def szA : JArr → Nat
  | .nil => 1
  | .cons v t => szJ v + szA t + 1
/-- Structural size of a JSON object. -/
def szO : JObj → Nat
  | .nil => 1
  | .cons _ v t => szJ v + szO t + 1
end

theorem szJ_pos (v : J) : 1 ≤ szJ v := by
  cases v <;> simp [szJ]

theorem szA_pos (a : JArr) : 1 ≤ szA a := by
  cases a <;> simp [szA]

theorem szO_pos (o : JObj) : 1 ≤ szO o := by
  cases o <;> simp [szO]

theorem charVal_digitChar {d : Nat} (h : d < 10) : charVal (digitChar d) = d := by
  interval_cases d <;> decide

theorem isAsciiDigit_digitChar {d : Nat} (h : d < 10) :
    isAsciiDigit (digitChar d) = true := by
  interval_cases d <;> decide

theorem digitsLE_lt (f n : Nat) : ∀ d ∈ digitsLE f n, d < 10 := by
  induction f generalizing n with
  | zero => intro d hd; simp [digitsLE] at hd
  | succ f ih =>
    intro d hd
    cases n with
    | zero => simp [digitsLE] at hd
    | succ m =>
      simp only [digitsLE, List.mem_cons] at hd
      rcases hd with h | h
      · omega
      · exact ih _ _ h

theorem digitsLE_val (f : Nat) :
    ∀ n, n ≤ f → (digitsLE f n).foldr (fun d a => a * 10 + d) 0 = n := by
  induction f with
  | zero => intro n hn; interval_cases n; simp [digitsLE]
  | succ f ih =>
    intro n hn
    cases n with
    | zero => simp [digitsLE]
    | succ m =>
      simp only [digitsLE, List.foldr_cons]
      have hdiv : (m + 1) / 10 ≤ f := by omega
      rw [ih _ hdiv]
      omega

theorem natToChars_all_digits (n : Nat) :
    ∀ c ∈ natToChars n, isAsciiDigit c = true := by
  intro c hc
  unfold natToChars at hc
  by_cases h : n = 0
  · simp [h] at hc; simp [hc]; decide
  · simp only [h, if_false, List.mem_reverse, List.mem_map] at hc
    obtain ⟨d, hd, rfl⟩ := hc
    exact isAsciiDigit_digitChar (digitsLE_lt n n d hd)

theorem natToChars_ne_nil (n : Nat) : natToChars n ≠ [] := by
  unfold natToChars
  by_cases h : n = 0
  · simp [h]
  · simp only [h, if_false]
    intro hcon
    have h0 := digitsLE_val n n (le_refl n)
    rw [List.reverse_eq_nil_iff, List.map_eq_nil_iff] at hcon
    rw [hcon] at h0
    simp at h0
    omega

theorem digitsVal_natToChars (n : Nat) : digitsVal (natToChars n) = n := by
  unfold natToChars digitsVal
  by_cases h : n = 0
  · simp [h, charVal]
  · simp only [h, if_false]
    rw [List.foldl_reverse, List.foldr_map]
    have hcong : ∀ (l : List Nat), (∀ d ∈ l, d < 10) → ∀ a : Nat,
        List.foldr (fun d acc => acc * 10 + charVal (digitChar d)) a l =
        List.foldr (fun d acc => acc * 10 + d) a l := by
      intro l hl
      induction l with
      | nil => intro a; rfl
      | cons x t iht =>
        intro a
        simp only [List.foldr_cons]
        rw [iht (fun d hd => hl d (List.mem_cons_of_mem _ hd)),
          charVal_digitChar (hl x (List.mem_cons_self _ _))]
    rw [hcong _ (digitsLE_lt n n)]
    exact digitsLE_val n n (le_refl n)

theorem takeWhile_append_all {p : Char → Bool} :
    ∀ (A rest : List Char), (∀ c ∈ A, p c = true) →
      (∀ c cs, rest = c :: cs → p c = false) →
      (A ++ rest).takeWhile p = A ∧ (A ++ rest).dropWhile p = rest := by
  intro A
  induction A with
  | nil =>
    intro rest _ hrest
    cases rest with
    | nil => simp
    | cons c cs =>
      simp [List.takeWhile_cons, List.dropWhile_cons, hrest c cs rfl]
  | cons a t ih =>
    intro rest hA hrest
    have hpa : p a = true := hA a (List.mem_cons_self _ _)
    have iht := ih rest (fun c hc => hA c (List.mem_cons_of_mem _ hc)) hrest
    simp [List.takeWhile_cons, List.dropWhile_cons, hpa, iht.1, iht.2]

theorem parseStrBody_esc (s : PyStr) :
    ∀ rest, parseStrBody (escString s ++ '"' :: rest) = some (s, rest) := by
  induction s with
  | nil =>
    intro rest
    simp [escString, parseStrBody.eq_def]
  | cons c t ih =>
    intro rest
    rcases Decidable.em (c = '"' ∨ c = '\\') with hc | hc
    · have he : escString (c :: t) = '\\' :: c :: escString t := by
        simp [escString, escChar, if_pos hc]
      rw [he, List.cons_append, List.cons_append, parseStrBody.eq_def]
      simp [if_pos hc, ih rest]
    · push_neg at hc
      have he : escString (c :: t) = c :: escString t := by
        simp [escString, escChar, hc.1, hc.2]
      rw [he, List.cons_append, parseStrBody.eq_def]
      simp [hc.1, hc.2, ih rest]

theorem intToChars_ne_nil (i : Int) : intToChars i ≠ [] := by
  unfold intToChars
  by_cases h : i < 0
  · simp [h]
  · simp only [h, if_false]
    exact natToChars_ne_nil _

mutual
theorem serJ_len (v : J) : szJ v + 1 ≤ 2 * (serJ v).length := by
  cases v with
  | null => simp [szJ, serJ]
  | bool b => cases b <;> simp [szJ, serJ]
  | num i =>
    have h := intToChars_ne_nil i
    have : 1 ≤ (intToChars i).length := by
      cases hy : intToChars i with
      | nil => exact absurd hy h
      | cons a t => simp
    simp only [szJ, serJ]
    omega
  | str s => simp [szJ, serJ]
  | arr a =>
    have h := serArr_len a
    simp only [szJ, serJ, List.length_cons, List.length_append, List.length_singleton]
    omega
  | obj o =>
    have h := serObj_len o
    simp only [szJ, serJ, List.length_cons, List.length_append, List.length_singleton]
    omega
theorem serArr_len (a : JArr) : szA a ≤ 2 * (serArr a).length + 1 := by
  cases a with
  | nil => simp [szA, serArr]
  | cons v t =>
    cases t with
    | nil =>
      have h := serJ_len v
      simp only [szA, szO, serArr]
      omega
    | cons w t2 =>
      have h1 := serJ_len v
      have h2 := serArr_len (.cons w t2)
      simp only [szA, serArr, List.length_append, List.length_cons] at h2 ⊢
      omega
theorem serObj_len (o : JObj) : szO o ≤ 2 * (serObj o).length + 1 := by
  cases o with
  | nil => simp [szO, serObj]
  | cons k v t =>
    cases t with
    | nil =>
      have h := serJ_len v
      simp only [szO, serObj, List.length_cons, List.length_append]
      omega
    | cons k2 v2 t2 =>
      have h1 := serJ_len v
      have h2 := serObj_len (.cons k2 v2 t2)
      simp only [szO, serObj, List.length_cons, List.length_append] at h2 ⊢
      omega
end

theorem ne_of_digit_mismatch {c d : Char} (h : isAsciiDigit c = true)
    (hd : isAsciiDigit d = false) : c ≠ d := by
  intro he
  rw [he, hd] at h
  cases h

theorem serJ_head (v : J) : ∃ c cs, serJ v = c :: cs ∧ c ≠ ']' := by
  cases v with
  | null => exact ⟨'n', _, rfl, by decide⟩
  | bool b =>
    cases b
    · exact ⟨'f', _, rfl, by decide⟩
    · exact ⟨'t', _, rfl, by decide⟩
  | num i =>
    show ∃ c cs, intToChars i = c :: cs ∧ c ≠ ']'
    by_cases h : i < 0
    · exact ⟨'-', natToChars i.natAbs, by simp [intToChars, h], by decide⟩
    · obtain ⟨c, cs, hc⟩ := List.exists_cons_of_ne_nil (natToChars_ne_nil i.toNat)
      refine ⟨c, cs, by simp [intToChars, h, hc], ?_⟩
      have hdig : isAsciiDigit c = true :=
        natToChars_all_digits i.toNat c (by rw [hc]; exact List.mem_cons_self _ _)
      exact ne_of_digit_mismatch hdig (by decide)
  | str s => exact ⟨'"', _, rfl, by decide⟩
  | arr a => exact ⟨'[', _, rfl, by decide⟩
  | obj o => exact ⟨'{', _, rfl, by decide⟩

/-- Residual input after a parsed number must not start with another digit;
all residues arising from the serializer have this property. -/
def restOk (rest : List Char) : Prop :=
  rest = [] ∨ ∃ c cs, rest = c :: cs ∧ isAsciiDigit c = false

theorem restOk_head {rest : List Char} (h : restOk rest) :
    ∀ c cs, rest = c :: cs → isAsciiDigit c = false := by
  rcases h with rfl | ⟨c0, cs0, rfl, hc0⟩
  · intro c cs h; cases h
  · intro c cs h
    injection h with h1 _
    rw [← h1]; exact hc0

theorem parseCore_succ_value (f : Nat) (s : List Char) :
    parseCore (f + 1) .value s = parseValueAux (parseCore f) s := rfl

theorem parseCore_succ_arr (f : Nat) (s : List Char) :
    parseCore (f + 1) .arrItems s = parseArrAux (parseCore f) s := rfl

theorem parseCore_succ_obj (f : Nat) (s : List Char) :
    parseCore (f + 1) .objItems s = parseObjAux (parseCore f) s := rfl

theorem parseValueAux_digit (rec : PMode → List Char → Option PRes) (c : Char)
    (r : List Char) (h : isAsciiDigit c = true) :
    parseValueAux rec (c :: r) =
      some (.v (.num (digitsVal ((c :: r).takeWhile isAsciiDigit)))
        ((c :: r).dropWhile isAsciiDigit)) := by
  have h1 : ¬(c = 'n') := ne_of_digit_mismatch h (by decide)
  have h2 : ¬(c = 't') := ne_of_digit_mismatch h (by decide)
  have h3 : ¬(c = 'f') := ne_of_digit_mismatch h (by decide)
  have h4 : ¬(c = '"') := ne_of_digit_mismatch h (by decide)
  have h5 : ¬(c = '[') := ne_of_digit_mismatch h (by decide)
  have h6 : ¬(c = '{') := ne_of_digit_mismatch h (by decide)
  have h7 : ¬(c = '-') := ne_of_digit_mismatch h (by decide)
  unfold parseValueAux
  simp only [if_neg h1, if_neg h2, if_neg h3, if_neg h4, if_neg h5, if_neg h6,
    if_neg h7, if_pos h]

theorem parseValueAux_quote (rec : PMode → List Char → Option PRes)
    (r : List Char) :
    parseValueAux rec ('"' :: r) =
      (match parseStrBody r with
       | some (s2, r2) => some (.v (.str s2) r2)
       | none => none) := rfl

theorem parseValueAux_lbrack (rec : PMode → List Char → Option PRes) (c2 : Char)
    (r2 : List Char) (h : ¬(c2 = ']')) :
    parseValueAux rec ('[' :: c2 :: r2) =
      (match rec .arrItems (c2 :: r2) with
       | some (.la xs r3) => some (.v (.arr xs) r3)
       | _ => none) := by
  have hstep : parseValueAux rec ('[' :: c2 :: r2) =
      (if c2 = ']' then some (.v (.arr .nil) r2)
       else
        match rec .arrItems (c2 :: r2) with
        | some (.la xs r3) => some (.v (.arr xs) r3)
        | _ => none) := rfl
  rw [hstep, if_neg h]

theorem parseValueAux_lbrace (rec : PMode → List Char → Option PRes) (c2 : Char)
    (r2 : List Char) (h : ¬(c2 = '}')) :
    parseValueAux rec ('{' :: c2 :: r2) =
      (match rec .objItems (c2 :: r2) with
       | some (.lo xs r3) => some (.v (.obj xs) r3)
       | _ => none) := by
  have hstep : parseValueAux rec ('{' :: c2 :: r2) =
      (if c2 = '}' then some (.v (.obj .nil) r2)
       else
        match rec .objItems (c2 :: r2) with
        | some (.lo xs r3) => some (.v (.obj xs) r3)
        | _ => none) := rfl
  rw [hstep, if_neg h]

theorem parseObjAux_quote (rec : PMode → List Char → Option PRes)
    (r : List Char) :
    parseObjAux rec ('"' :: r) =
      (match parseStrBody r with
       | some (k, r1) =>
         (match r1 with
          | ':' :: r2 =>
            (match rec .value r2 with
             | some (.v v r3) =>
               (match r3 with
                | [] => none
                | c2 :: r4 =>
                  if c2 = ',' then
                    match rec .objItems r4 with
                    | some (.lo t r5) => some (.lo (.cons k v t) r5)
                    | _ => none
                  else if c2 = '}' then some (.lo (.cons k v .nil) r4)
                  else none)
             | _ => none)
          | _ => none)
       | none => none) := rfl

set_option maxHeartbeats 1000000 in
theorem parseCore_ser (f : Nat) :
    (∀ v rest, szJ v ≤ f → restOk rest →
      parseCore f .value (serJ v ++ rest) = some (.v v rest))
  ∧ (∀ a rest, a ≠ JArr.nil → szA a ≤ f →
      parseCore f .arrItems (serArr a ++ ']' :: rest) = some (.la a rest))
  ∧ (∀ o rest, o ≠ JObj.nil → szO o ≤ f →
      parseCore f .objItems (serObj o ++ '}' :: rest) = some (.lo o rest)) := by
  induction f with
  | zero =>
    refine ⟨?_, ?_, ?_⟩
    · intro v rest hsz _; exact absurd hsz (by have := szJ_pos v; omega)
    · intro a rest _ hsz; exact absurd hsz (by have := szA_pos a; omega)
    · intro o rest _ hsz; exact absurd hsz (by have := szO_pos o; omega)
  | succ f ih =>
    obtain ⟨ihv, iha, iho⟩ := ih
    refine ⟨?_, ?_, ?_⟩
    · -- values
      intro v rest hsz hrest
      cases v with
      | null => rfl
      | bool b => cases b <;> rfl
      | num i =>
        have hA : ∀ c ∈ natToChars i.natAbs, isAsciiDigit c = true :=
          natToChars_all_digits _
        have hA2 : ∀ c ∈ natToChars i.toNat, isAsciiDigit c = true :=
          natToChars_all_digits _
        have hr := restOk_head hrest
        by_cases hneg : i < 0
        · have hser : serJ (.num i) = '-' :: natToChars i.natAbs := by
            simp [serJ, intToChars, hneg]
          rw [hser, List.cons_append, parseCore_succ_value]
          have hstep : parseValueAux (parseCore f) ('-' :: (natToChars i.natAbs ++ rest)) =
              (match (natToChars i.natAbs ++ rest).takeWhile isAsciiDigit with
               | [] => none
               | d :: ds => some (.v (.num (-(digitsVal (d :: ds) : Int)))
                   ((natToChars i.natAbs ++ rest).dropWhile isAsciiDigit))) := rfl
          rw [hstep]
          have htw := takeWhile_append_all (natToChars i.natAbs) rest hA hr
          obtain ⟨c, cs, hc⟩ := List.exists_cons_of_ne_nil (natToChars_ne_nil i.natAbs)
          rw [htw.1, htw.2, hc]
          have hval : digitsVal (c :: cs) = i.natAbs := by
            rw [← hc]; exact digitsVal_natToChars _
          simp only [hval]
          have hi : (-(i.natAbs : Int)) = i := by omega
          rw [hi]
        · have hser : serJ (.num i) = natToChars i.toNat := by
            simp [serJ, intToChars, hneg]
          obtain ⟨c, cs, hc⟩ := List.exists_cons_of_ne_nil (natToChars_ne_nil i.toNat)
          have hcdig : isAsciiDigit c = true :=
            hA2 c (by rw [hc]; exact List.mem_cons_self _ _)
          rw [hser, hc, List.cons_append, parseCore_succ_value,
            parseValueAux_digit _ c (cs ++ rest) hcdig]
          have htw := takeWhile_append_all (natToChars i.toNat) rest hA2 hr
          rw [hc] at htw
          simp only [List.cons_append] at htw
          rw [htw.1, htw.2, ← hc, digitsVal_natToChars]
          have hi : ((i.toNat : Int)) = i := by omega
          rw [hi]
      | str s =>
        have hser : serJ (J.str s) ++ rest = '"' :: (escString s ++ '"' :: rest) := by
          simp [serJ]
        rw [hser, parseCore_succ_value, parseValueAux_quote, parseStrBody_esc s rest]
      | arr a =>
        cases a with
        | nil => rfl
        | cons v t =>
          have hsz' : szA (JArr.cons v t) ≤ f := by
            simp only [szJ] at hsz; omega
          have harr := iha (JArr.cons v t) rest (by simp) hsz'
          obtain ⟨c0, cs0, hc0, hc0ne⟩ := serJ_head v
          obtain ⟨X, hX⟩ : ∃ X, serArr (JArr.cons v t) ++ ']' :: rest = c0 :: X := by
            cases t with
            | nil => exact ⟨cs0 ++ ']' :: rest, by simp [serArr, hc0]⟩
            | cons w t2 =>
              exact ⟨cs0 ++ (',' :: serArr (JArr.cons w t2) ++ ']' :: rest), by
                simp [serArr, hc0]⟩
          have hser : serJ (J.arr (JArr.cons v t)) ++ rest =
              '[' :: (serArr (JArr.cons v t) ++ ']' :: rest) := by
            simp [serJ]
          rw [hser, hX, parseCore_succ_value, parseValueAux_lbrack _ _ _ hc0ne,
            ← hX, harr]
      | obj o =>
        cases o with
        | nil => rfl
        | cons k v t =>
          have hsz' : szO (JObj.cons k v t) ≤ f := by
            simp only [szJ] at hsz; omega
          have hobj := iho (JObj.cons k v t) rest (by simp) hsz'
          obtain ⟨X, hX⟩ : ∃ X, serObj (JObj.cons k v t) ++ '}' :: rest = '"' :: X := by
            cases t with
            | nil => exact ⟨(escString k ++ '"' :: ':' :: serJ v) ++ '}' :: rest, by
                simp [serObj]⟩
            | cons k2 v2 t2 =>
              exact ⟨(escString k ++ '"' :: ':' :: serJ v) ++
                  ',' :: serObj (JObj.cons k2 v2 t2) ++ '}' :: rest, by
                simp [serObj]⟩
          have hser : serJ (J.obj (JObj.cons k v t)) ++ rest =
              '{' :: (serObj (JObj.cons k v t) ++ '}' :: rest) := by
            simp [serJ]
          rw [hser, hX, parseCore_succ_value,
            parseValueAux_lbrace _ _ _ (by decide), ← hX, hobj]
    · -- array items
      intro a rest hne hsz
      cases a with
      | nil => exact absurd rfl hne
      | cons v t =>
        cases t with
        | nil =>
          have hv := ihv v (']' :: rest) (by simp only [szA] at hsz; omega)
            (Or.inr ⟨']', rest, rfl, by decide⟩)
          show parseCore (f + 1) .arrItems (serJ v ++ ']' :: rest) = _
          rw [parseCore_succ_arr]
          unfold parseArrAux
          rw [hv]
          rfl
        | cons w t2 =>
          have hv := ihv v (',' :: (serArr (JArr.cons w t2) ++ ']' :: rest))
            (by simp only [szA] at hsz; omega)
            (Or.inr ⟨',', _, rfl, by decide⟩)
          have ht := iha (JArr.cons w t2) rest (by simp)
            (by simp only [szA] at hsz ⊢; omega)
          have hre : serArr (JArr.cons v (JArr.cons w t2)) ++ ']' :: rest =
              serJ v ++ (',' :: (serArr (JArr.cons w t2) ++ ']' :: rest)) := by
            simp [serArr]
          rw [hre, parseCore_succ_arr]
          unfold parseArrAux
          rw [hv]
          simp [ht]
    · -- object entries
      intro o rest hne hsz
      cases o with
      | nil => exact absurd rfl hne
      | cons k v t =>
        cases t with
        | nil =>
          have hv := ihv v ('}' :: rest) (by simp only [szO] at hsz; omega)
            (Or.inr ⟨'}', rest, rfl, by decide⟩)
          have hre : serObj (JObj.cons k v JObj.nil) ++ '}' :: rest =
              '"' :: (escString k ++ '"' :: (':' :: (serJ v ++ '}' :: rest))) := by
            simp [serObj]
          rw [hre, parseCore_succ_obj, parseObjAux_quote,
            parseStrBody_esc k (':' :: (serJ v ++ '}' :: rest))]
          simp [hv]
        | cons k2 v2 t2 =>
          have hv := ihv v
            (',' :: (serObj (JObj.cons k2 v2 t2) ++ '}' :: rest))
            (by simp only [szO] at hsz; omega)
            (Or.inr ⟨',', _, rfl, by decide⟩)
          have ht := iho (JObj.cons k2 v2 t2) rest (by simp)
            (by simp only [szO] at hsz ⊢; omega)
          have hre : serObj (JObj.cons k v (JObj.cons k2 v2 t2)) ++ '}' :: rest =
              '"' :: (escString k ++ '"' ::
                (':' :: (serJ v ++ ',' :: (serObj (JObj.cons k2 v2 t2) ++ '}' :: rest)))) := by
            simp [serObj]
          rw [hre, parseCore_succ_obj, parseObjAux_quote,
            parseStrBody_esc k (':' :: (serJ v ++ ',' :: (serObj (JObj.cons k2 v2 t2) ++ '}' :: rest)))]
          simp [hv, ht]

/-- `json.loads (json.dumps v) = v` for every JSON value. -/
theorem jsonLoads_dumps (v : J) : jsonLoads (jsonDumps v) = some v := by
  unfold jsonLoads jsonDumps
  have hb : szJ v ≤ 2 * (serJ v).length + 1 := by
    have := serJ_len v; omega
  have h := (parseCore_ser (2 * (serJ v).length + 1)).1 v [] hb (Or.inl rfl)
  rw [List.append_nil] at h
  rw [h]
  simp

/-! ### Calendar model (Python `datetime` essentials) -/

/-- Gregorian leap-year test. -/
def isLeapYear (y : Nat) : Bool := (y % 4 = 0 && y % 100 ≠ 0) || y % 400 = 0

/-- Number of days in a month (`datetime` validation). -/
def daysInMonth (y m : Nat) : Nat :=
  if m = 2 then (if isLeapYear y then 29 else 28)
  else if m = 4 ∨ m = 6 ∨ m = 9 ∨ m = 11 then 30
  else 31

/-- Days from civil epoch 1970-01-01 (standard civil-calendar conversion). -/
def daysFromCivil (y m d : Nat) : Int :=
  let y2 : Int := if m ≤ 2 then (y : Int) - 1 else y
  let era : Int := (if 0 ≤ y2 then y2 else y2 - 399) / 400
  let yoe : Int := y2 - era * 400
  let mp : Int := ((m : Int) + 9) % 12
  let doy : Int := (153 * mp + 2) / 5 + d - 1
  let doe : Int := yoe * 365 + yoe / 4 - yoe / 100 + doy
  era * 146097 + doe - 719468

/-- Epoch seconds of a civil datetime interpreted without an offset. -/
def civilSecs (y m d h mi s : Nat) : Int :=
  daysFromCivil y m d * 86400 + (h : Int) * 3600 + (mi : Int) * 60 + s

/-- Parse exactly two decimal digits. -/
def parse2dig : List Char → Option (Nat × List Char)
  | a :: b :: r =>
    if isAsciiDigit a && isAsciiDigit b then
      some (charVal a * 10 + charVal b, r)
    else none
  | _ => none

/-- Parse exactly four decimal digits. -/
def parse4dig : List Char → Option (Nat × List Char)
  | a :: b :: c :: d :: r =>
    if isAsciiDigit a && isAsciiDigit b && isAsciiDigit c && isAsciiDigit d then
      some (charVal a * 1000 + charVal b * 100 + charVal c * 10 + charVal d, r)
    else none
  | _ => none

/-- Model of `datetime.fromisoformat` restricted to the shapes this program
feeds it: `YYYY-MM-DD`, `YYYY-MM-DD{T| }HH:MM:SS`, optionally followed by an
offset `±HH:MM` (fractional seconds and other ISO variants are outside the
modelled subset and fail). Returns the naive epoch seconds together with the
explicit offset in seconds when one is present; field ranges are validated
as CPython does. -/
def fromIso (s : PyStr) : Option (Int × Option Int) :=
  match parse4dig s with
  | none => none
  | some (y, r1) =>
    match r1 with
    | '-' :: r2 =>
      match parse2dig r2 with
      | none => none
      | some (m, r3) =>
        match r3 with
        | '-' :: r4 =>
          match parse2dig r4 with
          | none => none
          | some (d, r5) =>
            if 1 ≤ y ∧ 1 ≤ m ∧ m ≤ 12 ∧ 1 ≤ d ∧ d ≤ daysInMonth y m then
              match r5 with
              | [] => some (civilSecs y m d 0 0 0, none)
              | sep :: r6 =>
                if sep = 'T' ∨ sep = ' ' then
                  match parse2dig r6 with
                  | none => none
                  | some (hh, r7) =>
                    match r7 with
                    | ':' :: r8 =>
                      match parse2dig r8 with
                      | none => none
                      | some (mi, r9) =>
                        match r9 with
                        | ':' :: r10 =>
                          match parse2dig r10 with
                          | none => none
                          | some (ss, r11) =>
                            if hh ≤ 23 ∧ mi ≤ 59 ∧ ss ≤ 59 then
                              match r11 with
                              | [] => some (civilSecs y m d hh mi ss, none)
                              | sign :: r12 =>
                                if sign = '+' ∨ sign = '-' then
                                  match parse2dig r12 with
                                  | none => none
                                  | some (oh, r13) =>
                                    match r13 with
                                    | ':' :: r14 =>
                                      match parse2dig r14 with
                                      | none => none
                                      | some (om, r15) =>
                                        if r15 = [] ∧ oh ≤ 23 ∧ om ≤ 59 then
                                          some (civilSecs y m d hh mi ss,
                                            some (if sign = '-'
                                              then -((oh * 3600 + om * 60 : Nat) : Int)
                                              else ((oh * 3600 + om * 60 : Nat) : Int)))
                                        else none
                                    | _ => none
                                else none
                            else none
                        | _ => none
                    | _ => none
                else none
            else none
        | _ => none
    | _ => none

/-! ### `src/tdnet.py` -/

/-- `_parse_dt_maybe` (src/tdnet.py): strip, translate `Z` to `+00:00`, ISO
parse; a naive timestamp is assumed to be JST. `ZoneInfo("Asia/Tokyo")` is
modelled as the fixed +09:00 offset (identical to the code's no-zoneinfo
fallback, and the actual Asia/Tokyo offset for every timestamp of the
disclosure era). The result is a UTC epoch-second count; `None` input or any
parse failure yields `none`. -/
def parseDtMaybe (value : Option PyStr) : Option Int :=
  match value with
  | none => none
  | some v =>
    if v.isEmpty then none
    else
      let s := pyStrip v
      if s.isEmpty then none
      else
        let s2 := replaceAllChar s 'Z' ['+', '0', '0', ':', '0', '0']
        match fromIso s2 with
        | some (naive, some off) => some (naive - off)
        | some (naive, none) => some (naive - 32400)
        | none => none

/-- `_pick_tdnet_dict` (src/tdnet.py): unwrap the case-varying `TDnet` /
`Tdnet` / `tdnet` wrapper key, falling back to the record itself. -/
def pickTdnetDict (raw : JObj) : JObj :=
  match raw.lookup ("TDnet".toList) with
  | some (.obj v) => v
  | _ =>
    match raw.lookup ("Tdnet".toList) with
    | some (.obj v) => v
    | _ =>
      match raw.lookup ("tdnet".toList) with
      | some (.obj v) => v
      | _ => raw

/-- `_code4_from_company_code` (src/tdnet.py). -/
def code4FromCompanyCode (company_code : PyStr) : PyStr :=
  let s := pyStrip company_code
  if !(pyIsDigit s) then []
  else if s.length = 5 && listEndsWith s ['0'] then s.dropLast
  else if 4 ≤ s.length then s.take 4
  else []

/-- Normalized disclosure record produced by `_normalize_item` (the Python
dict with keys `title`, `company_code`, `code4`, `company_name`, `doc_url`,
`published_at`, `raw`; `published_at` is a `datetime | None` modelled as an
optional UTC epoch-second count). -/
structure TdItem where
  title : PyStr
  company_code : PyStr
  code4 : PyStr
  company_name : PyStr
  doc_url : PyStr
  published_at : Option Int
  raw : JObj
  deriving DecidableEq

/-- `_normalize_item` (src/tdnet.py). -/
def normalizeItem (raw : JObj) : TdItem :=
  let td := pickTdnetDict raw
  let title := pyOr (jGet td ("title".toList)) (pyOr (jGet td ("Title".toList)) (.str []))
  let company_code :=
    pyOr (jGet td ("company_code".toList))
      (pyOr (jGet td ("CompanyCode".toList))
        (pyOr (jGet td ("code".toList)) (pyOr (jGet td ("Code".toList)) (.str []))))
  let company_name :=
    pyOr (jGet td ("company_name".toList)) (pyOr (jGet td ("CompanyName".toList)) (.str []))
  let doc_url :=
    pyOr (jGet td ("document_url".toList))
      (pyOr (jGet td ("documentUrl".toList))
        (pyOr (jGet td ("doc_url".toList)) (pyOr (jGet td ("url".toList)) (.str []))))
  let published_raw :=
    pyOr (jGet td ("published_at".toList))
      (pyOr (jGet td ("pubdate".toList)) (pyOr (jGet td ("date".toList)) (.str [])))
  let company_code_s := pyStrOf company_code
  { title := pyStrip (pyStrOf title)
    company_code := pyStrip company_code_s
    code4 := code4FromCompanyCode company_code_s
    company_name := pyStrip (pyStrOf company_name)
    doc_url := pyStrip (pyStrOf doc_url)
    published_at := parseDtMaybe (some (pyStrOf published_raw))
    raw := td }

/-- Outcome oracle for `_get_json` (src/tdnet.py): one entry per HTTP
attempt; `none` models an exception (timeout, non-2xx status or JSON decode
error), `some d` a parsed response body. -/
structure TdnetWorld where
  httpAttempts : List (Option J)

/-- The literal `{"items": []}` fallback body. -/
def itemsEmptyObj : JObj := .cons ("items".toList) (.arr .nil) .nil

/-- The retry loop of `_get_json`: first successful attempt wins; a non-dict
body is replaced by the empty-items dict; exhausting all attempts also
yields the empty-items dict (the code never raises). -/
def getJsonLoop : List (Option J) → JObj
  | [] => itemsEmptyObj
  | some d :: _ =>
    match d with
    | .obj o => o
    | _ => itemsEmptyObj
  | none :: rest => getJsonLoop rest

/-- `_get_json` (src/tdnet.py) with its `retries=2` default: at most three
attempts. -/
def getJson (world : TdnetWorld) : JObj := getJsonLoop (world.httpAttempts.take 3)

/-- Conversion of a modelled JSON array to a Lean list. -/
def JArr.toList : JArr → List J
  | .nil => []
  | .cons v t => v :: t.toList

/-- The `TDNET_BASE` default. -/
def tdnetBase : PyStr := "https://webapi.yanoshin.jp/webapi/tdnet/list".toList

/-- The request URL chosen by `fetch_tdnet_items`: per-security endpoint for
a 4-digit numeric code, `recent` otherwise. -/
def tdnetUrl (code : Option PyStr) (limit : Nat) : PyStr :=
  match code with
  | some c =>
    if !c.isEmpty && pyIsDigit c && c.length = 4 then
      tdnetBase ++ ('/' :: c) ++ (".json?limit=".toList) ++ natToChars limit
    else tdnetBase ++ ("/recent.json?limit=".toList) ++ natToChars limit
  | none => tdnetBase ++ ("/recent.json?limit=".toList) ++ natToChars limit

/-- `fetch_tdnet_items` (src/tdnet.py): `_get_json`, then normalize each
mapping-shaped element of the `items` list, skipping everything else; any
other body shape yields the empty list. -/
def fetchTdnetItems (code : Option PyStr) (world : TdnetWorld) : List TdItem :=
  let data := getJson world
  match data.lookup ("items".toList) with
  | some (.arr xs) =>
    xs.toList.filterMap (fun j =>
      match j with
      | .obj o => some (normalizeItem o)
      | _ => none)
  | _ => []

/-! ### `src/analyzer.py` -/

/-- Environment values read by the analyzer (`os.getenv`). `maxPdfBytesEnv`
is the integer value of `MAX_PDF_BYTES` (`none` when unset; the code treats
unset as `0`). -/
structure AnalyzerEnv where
  geminiApiKeyEnv : PyStr
  geminiModelEnv : Option PyStr
  maxPdfBytesEnv : Option Int

/-- Effect oracle for one analyzer run. `stream` is the outcome of
`requests.get(..., stream=True)` (an exception message — timeouts and
non-2xx via `raise_for_status` included — or the chunk stream);
`pageTexts` is the pypdf outcome on the downloaded document (an exception
message or the per-page extracted text, the best-effort empty-password
decrypt already folded in); `llmAttempts` gives per-attempt Gemini outcomes
(an exception message, or `resp.text` together with the reported total
token count). -/
structure AnalyzerWorld where
  stream : Except PyStr (List (List Nat))
  pypdfAvailable : Bool
  pageTexts : Except PyStr (List PyStr)
  genaiAvailable : Bool
  llmAttempts : List (Except PyStr (PyStr × Option Int))

/-- `ai_is_enabled` (src/analyzer.py). -/
def aiIsEnabled (env : AnalyzerEnv) : Bool := !(pyStrip env.geminiApiKeyEnv).isEmpty

/-- The size-exceeded error message of `download_pdf`. -/
def sizeErrMsg (maxB : Nat) : PyStr :=
  ("PDFサイズが上限を超えました（>".toList) ++ natToChars maxB ++ (" bytes）".toList)

/-- The download loop of `download_pdf`: accumulate chunks, skipping empty
ones, and abort as soon as the byte counter exceeds `maxB`. The third
component exposes the local `chunks` buffer at exit (the internal state of
the loop), so that buffering bounds can be stated. -/
def dlLoop (maxB : Nat) : List (List Nat) → Nat → List (List Nat) →
    Option (List Nat) × PyStr × List (List Nat)
  | [], _, acc => (some acc.join, [], acc)
  | c :: rest, total, acc =>
    if c.length = 0 then dlLoop maxB rest total acc
    else if maxB < total + c.length then (none, sizeErrMsg maxB, acc)
    else dlLoop maxB rest (total + c.length) (acc ++ [c])

/-- `download_pdf` (src/analyzer.py): empty URL and request exceptions give
errors; otherwise the streaming loop runs under the byte budget. -/
def downloadPdf (world : AnalyzerWorld) (url : PyStr) (maxB : Nat) :
    Option (List Nat) × PyStr :=
  let u := pyStrip url
  if u.isEmpty then (none, "PDF URLが空です。".toList)
  else
    match world.stream with
    | .error e => (none, ("PDFダウンロード失敗: ".toList) ++ e)
    | .ok chunks =>
      let r := dlLoop maxB chunks 0 []
      (r.1, r.2.1)

/-- `extract_text_from_pdf_bytes` (src/analyzer.py): keep the first
`maxPages` pages whose stripped text is non-empty, join with blank lines;
empty overall output is its own error, distinct from extraction failure. -/
def extractTextFromPdfBytes (world : AnalyzerWorld) (pdf_bytes : List Nat)
    (maxPages : Nat) : PyStr × PyStr :=
  if !world.pypdfAvailable then
    ([], "PDF抽出ライブラリ(pypdf)が未インストールです。requirements に `pypdf` を追加してください。".toList)
  else
    match world.pageTexts with
    | .error e => ([], ("PDF抽出に失敗しました: ".toList) ++ e)
    | .ok pages =>
      let texts := (pages.take maxPages).filter (fun t => !(pyStrip t).isEmpty)
      let out := pyStrip (List.intercalate ('\n' :: '\n' :: []) texts)
      if out.isEmpty then
        ([], "PDFからテキストを抽出できませんでした（空）。図表中心PDFの可能性があります。".toList)
      else (out, [])

/-- The retry loop of `_gemini_generate_json`: exceptions consume an attempt
and carry the error forward; a delivered response is processed immediately
(empty text, JSON parse with code-fence cleanup) and is never retried. -/
def geminiLoop : List (Except PyStr (PyStr × Option Int)) → PyStr →
    Option J × Option Int × PyStr
  | [], lastErr => (none, none, ("Gemini呼び出し失敗: ".toList) ++ lastErr)
  | .error e :: rest, _ => geminiLoop rest e
  | .ok (text, tok) :: _, _ =>
    let raw := pyStrip text
    if raw.isEmpty then (none, none, "Geminiの返答が空です。".toList)
    else
      match jsonLoads raw with
      | some obj => (some obj, tok, [])
      | none =>
        let c1 := pyStripChar (pyStrip raw) '`'
        let c2 :=
          if listStartsWith (pyLower c1) ("json\n".toList) then
            replaceFirst c1 ("json\n".toList) []
          else c1
        match jsonLoads c2 with
        | some obj => (some obj, tok, [])
        | none =>
          (none, none, ("GeminiのJSONパースに失敗しました。先頭: ".toList) ++ raw.take 200)

/-- `_gemini_generate_json` (src/analyzer.py) with its `max_retries=3`
default. The prompt and temperature do not influence the modelled outcome
(the world already fixes each attempt's result). -/
def geminiGenerateJson (world : AnalyzerWorld) (api_key : PyStr) :
    Option J × Option Int × PyStr :=
  let key := pyStrip api_key
  if key.isEmpty then (none, none, "GEMINI_API_KEY が未設定です。".toList)
  else if !world.genaiAvailable then
    (none, none, "google-genai が未インストールです。requirements.txt を確認してください。".toList)
  else geminiLoop (world.llmAttempts.take 3) []

/-- `AnalyzeResult` (src/analyzer.py). -/
structure AnalyzeResult where
  ok : Bool
  error : PyStr := []
  tokens : Option Int := none
  payload : Option JObj := none

/-- The success payload built by `summarize_kessan_pdf_to_json`
(insertion order `ok, pdf_url, model, tokens, result`). -/
def successPayload (pdf_url model : PyStr) (tokens : Option Int)
    (result : J) : JObj :=
  .cons ("ok".toList) (.bool true)
    (.cons ("pdf_url".toList) (.str pdf_url)
      (.cons ("model".toList) (.str model)
        (.cons ("tokens".toList)
          (match tokens with | some t => .num t | none => .null)
          (.cons ("result".toList) result .nil))))

/-- `summarize_kessan_pdf_to_json` (src/analyzer.py): download, extract
(35-page budget), truncate to 160000 characters, summarize. The truncated
text only feeds the prompt, which the world already accounts for. -/
def summarizeKessanPdfToJson (world : AnalyzerWorld) (pdf_url : PyStr)
    (gemini_api_key gemini_model : PyStr) (max_pdf_bytes : Nat) : AnalyzeResult :=
  let dl := downloadPdf world pdf_url max_pdf_bytes
  match dl.1 with
  | none => { ok := false, error := dl.2 }
  | some pdf_bytes =>
    let ex := extractTextFromPdfBytes world pdf_bytes 35
    if !ex.2.isEmpty then { ok := false, error := ex.2 }
    else
      let gen := geminiGenerateJson world gemini_api_key
      match gen.1 with
      | none => { ok := false, error := gen.2.2 }
      | some obj =>
        { ok := true
          tokens := gen.2.1
          payload := some (successPayload pdf_url gemini_model gen.2.1 obj) }

/-- The error payload returned by `analyze_pdf_to_json` (insertion order
`ok, error, model, pdf_url`). -/
def analyzeFailPayload (error model pdf_url : PyStr) : JObj :=
  .cons ("ok".toList) (.bool false)
    (.cons ("error".toList) (.str error)
      (.cons ("model".toList) (.str model)
        (.cons ("pdf_url".toList) (.str pdf_url) .nil)))

/-- The effective model name computed by `analyze_pdf_to_json`
(`(os.getenv("GEMINI_MODEL") or "gemini-2.0-flash").strip()`; the
`gemini_model` keyword is never passed by app.py). -/
def effectiveModel (env : AnalyzerEnv) : PyStr :=
  pyStrip (match env.geminiModelEnv with
    | some m => if m.isEmpty then "gemini-2.0-flash".toList else m
    | none => "gemini-2.0-flash".toList)

/-- The effective byte budget computed by `analyze_pdf_to_json` (20 MB when
unset or non-positive). -/
def effectiveLimit (env : AnalyzerEnv) : Nat :=
  let limit0 : Int := match env.maxPdfBytesEnv with | some n => n | none => 0
  if limit0 ≤ 0 then 20971520 else limit0.toNat

/-- `analyze_pdf_to_json` (src/analyzer.py), as called by app.py (keyword
arguments at their defaults). Always returns a dict: the summarizer result
payload on success, and the fixed error shape on failure. Lean totality of
this definition is the model of "never raises". -/
def analyzePdfToJson (env : AnalyzerEnv) (world : AnalyzerWorld)
    (pdf_url : PyStr) : JObj :=
  let key := pyStrip env.geminiApiKeyEnv
  let model := effectiveModel env
  let res := summarizeKessanPdfToJson world pdf_url key model (effectiveLimit env)
  if !res.ok then analyzeFailPayload res.error model pdf_url
  else res.payload.getD .nil

/-! ### app.py helpers -/

/-- The title patterns of `_KESSAN_RE` (lower-cased; the regex is a plain
alternation with `re.IGNORECASE`). -/
def kessanPatterns : List PyStr :=
  ["決算短信".toList, "四半期決算".toList, "通期決算".toList,
   "financial results".toList, "earnings".toList, "results".toList]

/-- `is_kessan` (app.py): case-insensitive substring search for any of the
alternation branches (`None` titles enter as the empty string). -/
def isKessan (title : PyStr) : Bool :=
  kessanPatterns.any (fun p => containsSub (pyLower title) p)

/-- `_code4` (app.py): strip a trailing zero from 5-digit codes, else take
the first four characters when they are digits, else return the input
unchanged. -/
def appCode4 (code : PyStr) : PyStr :=
  let c := pyStrip code
  if c.length = 5 && pyIsDigit c && listEndsWith c ['0'] then c.dropLast
  else if 4 ≤ c.length && pyIsDigit (c.take 4) then c.take 4
  else c

/-- `_is_allowed_pdf_url` (app.py): substring/suffix tests on the lower-cased
URL. -/
def isAllowedPdfUrl (url : PyStr) : Bool :=
  let u := pyStrip url
  if u.isEmpty then false
  else
    let ul := pyLower u
    if containsSub ul ("release.tdnet.info".toList) && listEndsWith ul (".pdf".toList) then
      true
    else if containsSub ul ("webapi.yanoshin.jp/rd.php?".toList) &&
        containsSub ul ("release.tdnet.info".toList) &&
        containsSub ul (".pdf".toList) then
      true
    else false

/-! ### `src/storage.py` -/

/-- One row of the `analyses` table (all columns after the schema-evolution
`ALTER TABLE`s of `init_db`; nullable columns are `Option`). -/
structure Row where
  code : PyStr
  title : PyStr
  published_at : PyStr
  payload_json : PyStr
  created_at : PyStr
  model : Option PyStr
  tokens : Option Int
  schema_version : Option Int
  code4 : Option PyStr
  published_date_jst : Option PyStr
  doc_type : Option PyStr
  deriving DecidableEq

/-- The `analyses` table: an association list keyed by the primary key
`doc_url`. -/
abbrev Store := List (PyStr × Row)

/-- `SELECT ... WHERE doc_url=?` (primary-key lookup). -/
def storeGet : Store → PyStr → Option Row
  | [], _ => none
  | (k, r) :: t, key => if k = key then some r else storeGet t key

/-- `INSERT OR REPLACE` keyed by `doc_url`. -/
def storePut : Store → PyStr → Row → Store
  | [], key, r => [(key, r)]
  | (k, r0) :: t, key, r =>
    if k = key then (k, r) :: t else (k, r0) :: storePut t key r

/-- One conditional back-fill step of `get_cached_analysis`
(`if <column truthy> and <key> not in payload: payload[<key>] = <column>`);
`v` is the column value when truthy, `none` otherwise. -/
def backfill (p : JObj) (k : PyStr) (v : Option J) : JObj :=
  match v with
  | some v0 => if (p.lookup k).isNone then p.set k v0 else p
  | none => p

/-- A truthy TEXT column as a JSON string (`none` for NULL or empty). -/
def truthyStr : Option PyStr → Option J
  | some s => if s.isEmpty then none else some (.str s)
  | none => none

/-- A non-NULL INTEGER column as a JSON number. -/
def colNum : Option Int → Option J
  | some n => some (.num n)
  | none => none

/-- Sequential application of back-fill steps. -/
def backfills (p : JObj) : List (PyStr × Option J) → JObj
  | [] => p
  | (k, v) :: rest => backfills (backfill p k v) rest

/-- The six back-fill assignments of `get_cached_analysis`, in program
order. -/
def metaUpdates (row : Row) : List (PyStr × Option J) :=
  [("model".toList, truthyStr row.model),
   ("tokens".toList, colNum row.tokens),
   ("schema_version".toList, colNum row.schema_version),
   ("code4".toList, truthyStr row.code4),
   ("published_date_jst".toList, truthyStr row.published_date_jst),
   ("doc_type".toList, truthyStr row.doc_type)]

/-- The names of the six metadata columns that `get_cached_analysis` may
copy into a returned payload. -/
def metaKeys : List PyStr :=
  ["model".toList, "tokens".toList, "schema_version".toList,
   "code4".toList, "published_date_jst".toList, "doc_type".toList]

/-- The metadata back-fill of `get_cached_analysis` (src/storage.py lines
106-118): each DB-side value is copied into the payload only when it is
truthy (`tokens` / `schema_version`: merely non-NULL) and the key is
absent, in the listed order. -/
def injectMeta (p0 : JObj) (row : Row) : JObj := backfills p0 (metaUpdates row)

/-- `get_cached_analysis` (src/storage.py): empty URL or missing row gives
`none`; the stored `payload_json` is `json.loads`-parsed, metadata columns
are back-filled, and any non-dict or unparsable payload yields `none`. The
`except` fallback re-query (lines 94-101) handles a database file from
before the added columns; the modelled `Row` always carries every column,
so that branch is unreachable here. -/
def getCachedAnalysis (db : Store) (doc_url : PyStr) : Option JObj :=
  if doc_url.isEmpty then none
  else
    match storeGet db doc_url with
    | none => none
    | some row =>
      match jsonLoads row.payload_json with
      | some (.obj p) => some (injectMeta p row)
      | some _ => none
      | none => none

/-- Inverse civil-calendar conversion (days since 1970-01-01 to y/m/d). -/
def civilFromDays (z0 : Int) : Int × Int × Int :=
  let z : Int := z0 + 719468
  let era : Int := (if 0 ≤ z then z else z - 146096) / 146097
  let doe : Int := z - era * 146097
  let yoe : Int := (doe - doe / 1460 + doe / 36524 - doe / 146096) / 365
  let y : Int := yoe + era * 400
  let doy : Int := doe - (365 * yoe + yoe / 4 - yoe / 100)
  let mp : Int := (5 * doy + 2) / 153
  let d : Int := doy - (153 * mp + 2) / 5 + 1
  let m : Int := if mp < 10 then mp + 3 else mp - 9
  (if m ≤ 2 then y + 1 else y, m, d)

/-- Zero-pad a digit string to a given width. -/
def padZeros (s : PyStr) (w : Nat) : PyStr := List.replicate (w - s.length) '0' ++ s

/-- `datetime.astimezone(timezone.utc).isoformat()` for a UTC epoch second
count (the `+00:00`-suffixed rendering). -/
def isoFormatUTC (epoch : Int) : PyStr :=
  let days := epoch.fdiv 86400
  let rem := (epoch - days * 86400).toNat
  let ymd := civilFromDays days
  padZeros (natToChars ymd.1.toNat) 4 ++ '-' ::
    (padZeros (natToChars ymd.2.1.toNat) 2 ++ '-' ::
      (padZeros (natToChars ymd.2.2.toNat) 2 ++ 'T' ::
        (padZeros (natToChars (rem / 3600)) 2 ++ ':' ::
          (padZeros (natToChars (rem % 3600 / 60)) 2 ++ ':' ::
            (padZeros (natToChars (rem % 60)) 2 ++ "+00:00".toList)))))

/-- `published_at.astimezone(_JST).strftime("%Y-%m-%d")` for a UTC epoch
second count. -/
def fmtDateJst (epoch : Int) : PyStr :=
  let days := (epoch + 32400).fdiv 86400
  let ymd := civilFromDays days
  padZeros (natToChars ymd.1.toNat) 4 ++ '-' ::
    (padZeros (natToChars ymd.2.1.toNat) 2 ++ '-' ::
      padZeros (natToChars ymd.2.2.toNat) 2)

/-- Modelled from the spec: `_infer_model` is referenced by `save_analysis`
but its body is missing from the source tree (storage.py is truncated after
line 163). Per the spec, reads "synthesize any metadata fields absent from
old rows by falling back to values embedded in the stored JSON payload
itself", so the writer infers the model identifier from the payload. -/
def inferModel (payload : JObj) : Option PyStr :=
  match payload.lookup ("model".toList) with
  | some (.str s) => some s
  | _ => none

/-- Modelled from the spec: `_infer_tokens` (missing, see `inferModel`) —
the `tokenCount` metadata comes from the payload's `tokens` field. -/
def inferTokens (payload : JObj) : Option Int :=
  match payload.lookup ("tokens".toList) with
  | some (.num n) => some n
  | _ => none

/-- Modelled from the spec: `_infer_schema_version` (missing, see
`inferModel`) — the `schemaVersion` metadata comes from the payload's
`schema_version` field when embedded. -/
def inferSchemaVersion (payload : JObj) : Option Int :=
  match payload.lookup ("schema_version".toList) with
  | some (.num n) => some n
  | _ => none

/-- Modelled from the spec: `_infer_doc_type` (missing, see `inferModel`) —
the "coarse document-type classification" (`kessan / briefing / other` per
the `init_db` comment) computed at write time from the stored title; the
earnings-title test is the one the app uses. -/
def inferDocType (title : PyStr) (payload : JObj) : Option PyStr :=
  some (if isKessan title then "kessan".toList else "other".toList)

/-- Modelled from the spec: the tail of `save_analysis` (the SQL `VALUES`
list, truncated in the source after the column list) binds the computed
locals to the listed columns and stores `json.dumps(payload)` as
`payload_json` ("resultPayload: structured JSON"; persisted-state layout of
spec section 6), upserting by the `doc_url` primary key. The visible part
of `save_analysis` (lines 124-161) — the empty-URL no-op, `published_str` /
`date_jst` / `code4` computation and the `INSERT OR REPLACE` column list —
is embedded directly. `created_at` (wall clock) is not modelled. The
`published_at` argument is a `datetime | None` as passed by app.py, so the
`except` branch for non-datetime values is unreachable. -/
def savedRow (code : PyStr) (title : PyStr) (published_at : Option Int)
    (payload : JObj) : Row :=
  let published_str := match published_at with | some t => isoFormatUTC t | none => []
  let date_jst := match published_at with | some t => fmtDateJst t | none => []
  let code4 := if (pyStrip code).isEmpty then [] else (pyStrip code).take 4
  { code := code
    title := title
    published_at := published_str
    payload_json := jsonDumps (.obj payload)
    created_at := []
    model := inferModel payload
    tokens := inferTokens payload
    schema_version := inferSchemaVersion payload
    code4 := some code4
    published_date_jst := some date_jst
    doc_type := inferDocType title payload }

/-- `save_analysis` itself: no-op on an empty URL, else upsert the computed
row under the `doc_url` primary key (see `savedRow`). -/
def saveAnalysis (db : Store) (doc_url : PyStr) (code : PyStr) (title : PyStr)
    (published_at : Option Int) (payload : JObj) : Store :=
  if doc_url.isEmpty then db
  else storePut db doc_url (savedRow code title published_at payload)

/-! ### app.py (normalization pipeline and the AI分析 button flow) -/

/-- `datetime.strptime(s, "%Y<sep>%m<sep>%d %H:%M:%S")` for a single-character
date separator: the exact zero-padded shape, nothing before or after. -/
def strptimeYmdHms (sepDate : Char) (s : PyStr) : Option Int :=
  match parse4dig s with
  | none => none
  | some (y, r1) =>
    match r1 with
    | c1 :: r2 =>
      if c1 = sepDate then
        match parse2dig r2 with
        | none => none
        | some (m, r3) =>
          match r3 with
          | c2 :: r4 =>
            if c2 = sepDate then
              match parse2dig r4 with
              | none => none
              | some (d, r5) =>
                match r5 with
                | ' ' :: r6 =>
                  match parse2dig r6 with
                  | none => none
                  | some (hh, r7) =>
                    match r7 with
                    | ':' :: r8 =>
                      match parse2dig r8 with
                      | none => none
                      | some (mi, r9) =>
                        match r9 with
                        | ':' :: r10 =>
                          match parse2dig r10 with
                          | none => none
                          | some (ss, r11) =>
                            if r11 = [] ∧ 1 ≤ y ∧ 1 ≤ m ∧ m ≤ 12 ∧ 1 ≤ d ∧
                                d ≤ daysInMonth y m ∧ hh ≤ 23 ∧ mi ≤ 59 ∧ ss ≤ 59 then
                              some (civilSecs y m d hh mi ss)
                            else none
                        | _ => none
                    | _ => none
                | _ => none
            else none
          | _ => none
      else none
    | _ => none

/-- `_parse_dt_any` (app.py): ISO attempt (`Z` translated, naive values
pinned to the fixed +09:00 offset), then the space-separated `strptime`
fallbacks with `-` and `/` date separators (also pinned to +09:00); total
failure yields `none` (a UTC epoch-second count otherwise). -/
def parseDtAny (value : J) : Option Int :=
  if !value.truthy then none
  else
    let s := pyStrip (pyStrOf value)
    if s.isEmpty then none
    else
      let sIso := replaceAllChar s 'Z' ['+', '0', '0', ':', '0', '0']
      match fromIso sIso with
      | some (naive, some off) => some (naive - off)
      | some (naive, none) => some (naive - 32400)
      | none =>
        match strptimeYmdHms '-' s with
        | some naive => some (naive - 32400)
        | none =>
          match strptimeYmdHms '/' s with
          | some naive => some (naive - 32400)
          | none => none

/-- The rescue-order wrapper probe of `_extract_tdnet_fields` (app.py lines
81-88): `Tdnet`, then `TDnet`, then `tdnet`, then the raw mapping itself
(note the order differs from `_pick_tdnet_dict` in src/tdnet.py). -/
def pickTdnetDictApp (raw : JObj) : JObj :=
  match raw.lookup ("Tdnet".toList) with
  | some (.obj v) => v
  | _ =>
    match raw.lookup ("TDnet".toList) with
    | some (.obj v) => v
    | _ =>
      match raw.lookup ("tdnet".toList) with
      | some (.obj v) => v
      | _ => raw

/-- `_extract_tdnet_fields` (app.py), applied to an item produced by
`fetch_tdnet_items` (the only call site): the normalized dict carries
string `title` / `doc_url`, no `code` key at all (its keys are
`title, company_code, code4, company_name, doc_url, published_at, raw`),
a `datetime | None` under `published_at`, and the picked wrapper dict under
`raw` — so `code` always starts empty and is recovered from `raw`.
Returns `(title, code, doc_url, published_at_utc)`. -/
def extractTdnetFields (it : TdItem) : PyStr × PyStr × PyStr × Option Int :=
  let title0 := pyStrip it.title
  let code0 : PyStr := []
  let doc0 := pyStrip it.doc_url
  let published0 := it.published_at
  let td := pickTdnetDictApp it.raw
  let title :=
    if title0.isEmpty then
      pyStrip (pyStrOf (pyOr (jGet td ("title".toList))
        (pyOr (jGet td ("Title".toList)) (.str []))))
    else title0
  let code :=
    if code0.isEmpty then
      pyStrip (pyStrOf (pyOr (jGet td ("code".toList))
        (pyOr (jGet td ("company_code".toList))
          (pyOr (jGet td ("Code".toList)) (.str [])))))
    else code0
  let doc_url :=
    if doc0.isEmpty then
      pyStrip (pyStrOf (pyOr (jGet td ("document_url".toList))
        (pyOr (jGet td ("documentUrl".toList))
          (pyOr (jGet td ("doc_url".toList))
            (pyOr (jGet td ("url".toList)) (.str []))))))
    else doc0
  let published :=
    match published0 with
    | some t => some t
    | none =>
      parseDtAny (pyOr (jGet td ("published_at".toList))
        (pyOr (jGet td ("pubdate".toList)) (jGet td ("date".toList))))
  (title, code, doc_url, published)

/-- One entry of the `normalized` list built by app.py (lines 288-304). -/
structure AppItem where
  title : PyStr
  code : PyStr
  code_raw : PyStr
  doc_url : PyStr
  published_at : Option Int
  raw : JObj
  deriving DecidableEq

/-- The normalization loop body of app.py (lines 289-304): extract fields,
derive the 4-digit display code via `_code4`. (`it.get("raw")` is always the
wrapper dict for fetched items.) -/
def normalizeAppItem (it : TdItem) : AppItem :=
  let f := extractTdnetFields it
  { title := f.1
    code := appCode4 f.2.1
    code_raw := f.2.1
    doc_url := f.2.2.1
    published_at := f.2.2.2
    raw := it.raw }

/-- The per-item keep test of `apply_filters` (app.py lines 307-321):
earnings-title filter, document-URL filter, and the recency cutoff — which
only ever fires on items whose `published_at` is an actual datetime. -/
def keepItem (use_kessan only_has_doc_url : Bool) (cutoff : Int)
    (it : AppItem) : Bool :=
  if use_kessan && !isKessan it.title then false
  else if only_has_doc_url && (pyStrip it.doc_url).isEmpty then false
  else
    match it.published_at with
    | some t => !(t < cutoff)
    | none => true

/-- `apply_filters` (app.py). -/
def applyFilters (use_kessan only_has_doc_url : Bool) (cutoff : Int)
    (items : List AppItem) : List AppItem :=
  items.filter (keepItem use_kessan only_has_doc_url cutoff)

/-- `_check_pdf_size_or_warn` (app.py): no budget (`MAX_PDF_BYTES ≤ 0`) or an
undeterminable HEAD size passes (with a warning); only a known oversize
blocks. `headSize` folds `_pdf_size_bytes` (exception, status ≥ 400, absent
or non-positive `Content-Length` all give `none`). -/
def checkPdfSizeOrWarn (headSize : Option Int) (max_bytes : Int) : Bool :=
  if max_bytes ≤ 0 then true
  else
    match headSize with
    | none => true
    | some n => !(max_bytes < n)

/-- UI state feeding one AI分析 button evaluation. -/
structure FlowCtx where
  show_ai_button : Bool
  ai_ok : Bool
  pressed : Bool
  max_pdf_bytes : Int
  headSize : Option Int

/-- What one button evaluation did. -/
inductive FlowOutcome where
  | servedFromCache : JObj → FlowOutcome
  | idle : FlowOutcome
  | blockedBySize : FlowOutcome
  | analyzed : JObj → FlowOutcome
  deriving DecidableEq

/-- Result of one button evaluation: the store afterwards, the outcome, and
whether `analyze_pdf_to_json` ran. -/
structure FlowRes where
  db : Store
  outcome : FlowOutcome
  analyzeInvoked : Bool

/-- The un-cached part of the button flow (app.py lines 374-396): the button
is disabled unless `show_ai_button ∧ ai_ok ∧ doc_url truthy ∧ allowed`, so a
press reaches analysis only through that gate; a failed size pre-check stops
(`st.stop`) before analysis; otherwise `analyze_pdf_to_json` runs and its
payload is saved unconditionally. -/
def buttonFlowUncached (db : Store) (ctx : FlowCtx) (env : AnalyzerEnv)
    (world : AnalyzerWorld) (doc_url code_ title : PyStr)
    (published : Option Int) : FlowRes :=
  let allowed := !doc_url.isEmpty && isAllowedPdfUrl doc_url
  let can_run_ai := ctx.show_ai_button && ctx.ai_ok && allowed
  let run := ctx.pressed && can_run_ai
  if run then
    if !checkPdfSizeOrWarn ctx.headSize ctx.max_pdf_bytes then
      { db := db, outcome := .blockedBySize, analyzeInvoked := false }
    else
      let payload := analyzePdfToJson env world doc_url
      { db := saveAnalysis db doc_url code_ title published payload
        outcome := .analyzed payload
        analyzeInvoked := true }
  else { db := db, outcome := .idle, analyzeInvoked := false }

/-- One evaluation of the per-item AI分析 block (app.py lines 367-396):
cache consultation first (`if cached:` — a truthy cached dict is rendered
and the button is skipped), then the gated analyze-and-save path. -/
def buttonFlow (db : Store) (ctx : FlowCtx) (env : AnalyzerEnv)
    (world : AnalyzerWorld) (doc_url code_ title : PyStr)
    (published : Option Int) : FlowRes :=
  match (if !doc_url.isEmpty then getCachedAnalysis db doc_url else none) with
  | some p =>
    if (J.obj p).truthy then
      { db := db, outcome := .servedFromCache p, analyzeInvoked := false }
    else buttonFlowUncached db ctx env world doc_url code_ title published
  | none => buttonFlowUncached db ctx env world doc_url code_ title published

/-! ### The allow-list gate as the specification words it (for claim C2) -/

/-- The suffix of `s` after the first occurrence of `pat` (empty when `pat`
does not occur). Spec-side helper. -/
def afterSub (s pat : PyStr) : PyStr :=
  match s with
  | [] => []
  | c :: t => if listStartsWith (c :: t) pat then (c :: t).drop pat.length else afterSub t pat

/-- The host component of a URL: the text between `://` and the next `/`.
Spec-side helper. -/
def hostOf (u : PyStr) : PyStr :=
  (afterSub u ("://".toList)).takeWhile (fun c => !(c = '/'))

/-- Clause (a) of the spec's gate: on the canonical filing host and ending
in `.pdf`. -/
def specAllowedCanonical (u : PyStr) : Bool :=
  hostOf u = ("release.tdnet.info".toList) && listEndsWith u (".pdf".toList)

/-- The allow-list gate as the specification states it: (a) the canonical
filing host with a `.pdf` suffix, or (b) the redirect-wrapper host
`webapi.yanoshin.jp` with an `rd.php?` wrapper whose unwrapped target
satisfies (a). -/
def specAllowedPdfUrl (u : PyStr) : Bool :=
  specAllowedCanonical u ||
    (hostOf u = ("webapi.yanoshin.jp".toList) &&
      listStartsWith ((afterSub u ("://".toList)).drop (hostOf u).length)
        ("/rd.php?".toList) &&
      specAllowedCanonical (afterSub u ("rd.php?".toList)))

/-! ### Storage lemmas -/

theorem lookup_set : ∀ (p : JObj) (k : PyStr) (v : J) (k' : PyStr),
    (p.set k v).lookup k' = if k = k' then some v else p.lookup k'
  | .nil, k, v, k' => by simp [JObj.set, JObj.lookup]
  | .cons k0 v0 t, k, v, k' => by
    simp only [JObj.set]
    by_cases h0 : k0 = k
    · subst h0
      simp only [if_pos rfl, JObj.lookup]
      by_cases h1 : k0 = k'
      · subst h1; simp
      · simp [h1]
    · simp only [if_neg h0, JObj.lookup]
      by_cases h1 : k0 = k'
      · subst h1
        have hne : ¬(k = k0) := fun he => h0 he.symm
        simp [hne]
      · simp [h1, lookup_set t k v k']

theorem set_ne_nil (p : JObj) (k : PyStr) (v : J) : p.set k v ≠ .nil := by
  cases p with
  | nil => simp [JObj.set]
  | cons k0 v0 t =>
    simp only [JObj.set]
    split <;> simp

theorem backfill_lookup_isSome (p : JObj) (k0 : PyStr) (v : Option J)
    (k : PyStr) (h : (p.lookup k).isSome) :
    (backfill p k0 v).lookup k = p.lookup k := by
  cases v with
  | none => rfl
  | some v0 =>
    simp only [backfill]
    by_cases habs : (p.lookup k0).isNone
    · rw [if_pos habs, lookup_set]
      have hne : ¬(k0 = k) := by
        intro he
        rw [he] at habs
        rw [Option.isNone_iff_eq_none] at habs
        rw [habs] at h
        cases h
      rw [if_neg hne]
    · rw [if_neg habs]

theorem backfill_superset (p : JObj) (k0 : PyStr) (v : Option J) (k : PyStr)
    (h : ((backfill p k0 v).lookup k).isSome) :
    (p.lookup k).isSome ∨ k = k0 := by
  cases v with
  | none => exact Or.inl h
  | some v0 =>
    simp only [backfill] at h
    by_cases habs : (p.lookup k0).isNone
    · rw [if_pos habs, lookup_set] at h
      by_cases he : k0 = k
      · exact Or.inr he.symm
      · rw [if_neg he] at h; exact Or.inl h
    · rw [if_neg habs] at h; exact Or.inl h

theorem backfill_ne_nil (p : JObj) (k0 : PyStr) (v : Option J)
    (h : p ≠ .nil) : backfill p k0 v ≠ .nil := by
  cases v with
  | none => exact h
  | some v0 =>
    simp only [backfill]
    split
    · exact set_ne_nil p k0 v0
    · exact h

theorem backfills_lookup_isSome :
    ∀ (us : List (PyStr × Option J)) (p : JObj) (k : PyStr),
      (p.lookup k).isSome → (backfills p us).lookup k = p.lookup k := by
  intro us
  induction us with
  | nil => intro p k _; rfl
  | cons u rest ih =>
    intro p k h
    obtain ⟨k0, v⟩ := u
    show (backfills (backfill p k0 v) rest).lookup k = p.lookup k
    have h1 := backfill_lookup_isSome p k0 v k h
    rw [ih (backfill p k0 v) k (by rw [h1]; exact h), h1]

theorem backfills_superset :
    ∀ (us : List (PyStr × Option J)) (p : JObj) (k : PyStr),
      ((backfills p us).lookup k).isSome →
      (p.lookup k).isSome ∨ k ∈ us.map Prod.fst := by
  intro us
  induction us with
  | nil => intro p k h; exact Or.inl h
  | cons u rest ih =>
    intro p k h
    obtain ⟨k0, v⟩ := u
    rcases ih (backfill p k0 v) k h with h1 | h1
    · rcases backfill_superset p k0 v k h1 with h2 | h2
      · exact Or.inl h2
      · exact Or.inr (by simp [h2])
    · exact Or.inr (by simp [h1])

theorem backfills_ne_nil :
    ∀ (us : List (PyStr × Option J)) (p : JObj), p ≠ .nil →
      backfills p us ≠ .nil := by
  intro us
  induction us with
  | nil => intro p h; exact h
  | cons u rest ih =>
    intro p h
    obtain ⟨k0, v⟩ := u
    exact ih _ (backfill_ne_nil p k0 v h)

theorem injectMeta_lookup_isSome (p : JObj) (r : Row) (k : PyStr)
    (h : (p.lookup k).isSome) : (injectMeta p r).lookup k = p.lookup k :=
  backfills_lookup_isSome (metaUpdates r) p k h

theorem injectMeta_superset (p : JObj) (r : Row) (k : PyStr)
    (h : ((injectMeta p r).lookup k).isSome) :
    (p.lookup k).isSome ∨ k ∈ metaKeys := by
  rcases backfills_superset (metaUpdates r) p k h with h1 | h1
  · exact Or.inl h1
  · exact Or.inr (by simpa [metaUpdates, metaKeys] using h1)

theorem injectMeta_ne_nil (p : JObj) (r : Row) (h : p ≠ .nil) :
    injectMeta p r ≠ .nil :=
  backfills_ne_nil (metaUpdates r) p h

theorem truthy_obj (p : JObj) : (J.obj p).truthy = true ↔ p ≠ JObj.nil := by
  cases p <;> simp [J.truthy]

theorem storeGet_storePut (db : Store) (k : PyStr) (r : Row) :
    storeGet (storePut db k r) k = some r := by
  induction db with
  | nil => simp [storePut, storeGet]
  | cons e t ih =>
    obtain ⟨k0, r0⟩ := e
    simp only [storePut]
    by_cases h0 : k0 = k
    · rw [if_pos h0]
      simp [storeGet, h0]
    · rw [if_neg h0]
      simp [storeGet, h0, ih]

/-- `save_analysis` followed by `get_cached_analysis` on the same non-empty
URL returns the stored payload with the metadata back-fill applied. -/
theorem getCachedAnalysis_saveAnalysis (db : Store) (u code title : PyStr)
    (pub : Option Int) (payload : JObj) (hu : u ≠ []) :
    getCachedAnalysis (saveAnalysis db u code title pub payload) u =
      some (injectMeta payload (savedRow code title pub payload)) := by
  unfold saveAnalysis getCachedAnalysis
  have hne : u.isEmpty = false := by
    cases u with
    | nil => exact absurd rfl hu
    | cons a t => rfl
  rw [hne]
  simp only [Bool.false_eq_true, if_false, storeGet_storePut]
  have hp : (savedRow code title pub payload).payload_json =
      jsonDumps (.obj payload) := rfl
  rw [hp, jsonLoads_dumps]

/-! ### Download-loop lemmas (claim C7) -/

theorem join_filter_nonempty (l : List (List Nat)) :
    (l.filter (fun c => c.length != 0)).join = l.join := by
  induction l with
  | nil => rfl
  | cons c t ih =>
    by_cases h : c.length = 0
    · have hc : c = [] := List.length_eq_zero.mp h
      simp [hc, List.filter_cons, ih]
    · simp [List.filter_cons, h, ih]

theorem dlLoop_success (maxB : Nat) :
    ∀ (chunks : List (List Nat)) (total : Nat) (acc : List (List Nat)),
      total + (chunks.map List.length).sum ≤ maxB →
      dlLoop maxB chunks total acc =
        (some ((acc ++ chunks.filter (fun c => c.length != 0)).join), [],
          acc ++ chunks.filter (fun c => c.length != 0)) := by
  intro chunks
  induction chunks with
  | nil => intro total acc _; simp [dlLoop]
  | cons c rest ih =>
    intro total acc h
    simp only [List.map_cons, List.sum_cons] at h
    by_cases hc : c.length = 0
    · have h2 : total + (rest.map List.length).sum ≤ maxB := by omega
      have hstep : dlLoop maxB (c :: rest) total acc = dlLoop maxB rest total acc := by
        simp [dlLoop, hc]
      rw [hstep, ih total acc h2]
      have hf : (c :: rest).filter (fun c => c.length != 0) =
          rest.filter (fun c => c.length != 0) := by
        simp [List.filter_cons, hc]
      rw [hf]
    · have hlt : ¬(maxB < total + c.length) := by omega
      have hstep : dlLoop maxB (c :: rest) total acc =
          dlLoop maxB rest (total + c.length) (acc ++ [c]) := by
        simp [dlLoop, hc, hlt]
      have h2 : (total + c.length) + (rest.map List.length).sum ≤ maxB := by omega
      rw [hstep, ih (total + c.length) (acc ++ [c]) h2]
      have hf : (c :: rest).filter (fun c => c.length != 0) =
          c :: rest.filter (fun c => c.length != 0) := by
        simp [List.filter_cons, hc]
      rw [hf]
      simp

theorem dlLoop_fail (maxB : Nat) :
    ∀ (chunks : List (List Nat)) (total : Nat) (acc : List (List Nat)),
      total ≤ maxB →
      maxB < total + (chunks.map List.length).sum →
      ∃ k, dlLoop maxB chunks total acc =
          (none, sizeErrMsg maxB,
            acc ++ (chunks.take k).filter (fun c => c.length != 0)) ∧
        total + ((chunks.take k).map List.length).sum ≤ maxB ∧
        maxB < total + ((chunks.take (k + 1)).map List.length).sum := by
  intro chunks
  induction chunks with
  | nil =>
    intro total acc h1 h2
    simp at h2
    omega
  | cons c rest ih =>
    intro total acc h1 h2
    simp only [List.map_cons, List.sum_cons] at h2
    by_cases hc : c.length = 0
    · have h2' : maxB < total + (rest.map List.length).sum := by omega
      obtain ⟨k, hk1, hk2, hk3⟩ := ih total acc h1 h2'
      refine ⟨k + 1, ?_, ?_, ?_⟩
      · have hstep : dlLoop maxB (c :: rest) total acc = dlLoop maxB rest total acc := by
          simp [dlLoop, hc]
        rw [hstep, hk1]
        have hf : ((c :: rest).take (k + 1)).filter (fun c => c.length != 0) =
            (rest.take k).filter (fun c => c.length != 0) := by
          simp [List.take_succ_cons, List.filter_cons, hc]
        rw [hf]
      · simp only [List.take_succ_cons, List.map_cons, List.sum_cons]
        omega
      · simp only [List.take_succ_cons, List.map_cons, List.sum_cons]
        omega
    · by_cases hover : maxB < total + c.length
      · refine ⟨0, ?_, ?_, ?_⟩
        · simp [dlLoop, hc, hover]
        · simpa using h1
        · simp only [List.take_succ_cons, List.take_zero, List.map_cons,
            List.map_nil, List.sum_cons, List.sum_nil]
          omega
      · have h1' : total + c.length ≤ maxB := by omega
        have h2' : maxB < (total + c.length) + (rest.map List.length).sum := by omega
        obtain ⟨k, hk1, hk2, hk3⟩ := ih (total + c.length) (acc ++ [c]) h1' h2'
        refine ⟨k + 1, ?_, ?_, ?_⟩
        · have hstep : dlLoop maxB (c :: rest) total acc =
              dlLoop maxB rest (total + c.length) (acc ++ [c]) := by
            simp [dlLoop, hc, hover]
          rw [hstep, hk1]
          have hf : ((c :: rest).take (k + 1)).filter (fun c => c.length != 0) =
              c :: (rest.take k).filter (fun c => c.length != 0) := by
            simp [List.take_succ_cons, List.filter_cons, hc]
          rw [hf]
          simp
        · simp only [List.take_succ_cons, List.map_cons, List.sum_cons]
          omega
        · simp only [List.take_succ_cons, List.map_cons, List.sum_cons]
          omega

theorem sizeErrMsg_ne_nil (m : Nat) : sizeErrMsg m ≠ [] := by
  unfold sizeErrMsg
  intro h
  rw [List.append_eq_nil, List.append_eq_nil] at h
  exact absurd h.1.1 (by decide)

/-- Claim C7: for a stream delivered by the HTTP layer, the download returns
the full body with no error when the total size fits the budget; when the
cumulative size exceeds `maxB`, it returns the size-exceeded error, the
abort happens exactly at the chunk whose arrival first pushes the byte
counter past `maxB` (prefix sums bracket the budget), and the loop's buffer
at abort holds exactly the chunks before that point — a prefix of the
stream of length at most `maxB`, so no byte beyond the budget is ever
buffered. -/
theorem c7_download_budget (world : AnalyzerWorld) (url : PyStr) (maxB : Nat)
    (chunks : List (List Nat)) (hstream : world.stream = .ok chunks)
    (hurl : (pyStrip url).isEmpty = false) :
    ((chunks.map List.length).sum ≤ maxB →
      downloadPdf world url maxB = (some chunks.join, [])) ∧
    (maxB < (chunks.map List.length).sum →
      downloadPdf world url maxB = (none, sizeErrMsg maxB) ∧
      sizeErrMsg maxB ≠ [] ∧
      ∃ k, (dlLoop maxB chunks 0 []).2.2.join = (chunks.take k).join ∧
        ((chunks.take k).map List.length).sum ≤ maxB ∧
        maxB < ((chunks.take (k + 1)).map List.length).sum ∧
        (dlLoop maxB chunks 0 []).2.2.join.length ≤ maxB ∧
        ∃ tail, (dlLoop maxB chunks 0 []).2.2.join ++ tail = chunks.join) := by
  have hdl : downloadPdf world url maxB =
      ((dlLoop maxB chunks 0 []).1, (dlLoop maxB chunks 0 []).2.1) := by
    unfold downloadPdf
    simp [hurl, hstream]
  constructor
  · intro hle
    have h := dlLoop_success maxB chunks 0 [] (by omega)
    rw [hdl, h]
    simp [join_filter_nonempty]
  · intro hgt
    obtain ⟨k, hk1, hk2, hk3⟩ := dlLoop_fail maxB chunks 0 [] (by omega) (by omega)
    have hbuf : (dlLoop maxB chunks 0 []).2.2 =
        (chunks.take k).filter (fun c => c.length != 0) := by
      rw [hk1]
      simp
    have hjoin : (dlLoop maxB chunks 0 []).2.2.join = (chunks.take k).join := by
      rw [hbuf, join_filter_nonempty]
    refine ⟨by rw [hdl, hk1], sizeErrMsg_ne_nil maxB, k, hjoin, by omega, by omega, ?_, ?_⟩
    · rw [hjoin, List.length_join]
      omega
    · refine ⟨(chunks.drop k).join, ?_⟩
      rw [hjoin, ← List.join_append, List.take_append_drop]

/-- A failing stream world used by several witnesses. -/
def exWorldChunks : AnalyzerWorld :=
  { stream := .ok [[1, 2], [3]], pypdfAvailable := true, pageTexts := .ok [],
    genaiAvailable := true, llmAttempts := [] }

/-- The allowed filing-host URL used by several witnesses. -/
def exUrl : PyStr := "https://release.tdnet.info/x.pdf".toList

/-- Witness for C7 at a concrete stream: under a 10-byte budget the full
3-byte body is returned; under a 2-byte budget the size-exceeded error is
returned. -/
theorem c7_download_budget_witness :
    downloadPdf exWorldChunks exUrl 10 = (some [1, 2, 3], []) ∧
    downloadPdf exWorldChunks exUrl 2 = (none, sizeErrMsg 2) := by
  constructor
  · exact (c7_download_budget exWorldChunks exUrl 10 [[1, 2], [3]] rfl
      (by decide)).1 (by decide)
  · exact ((c7_download_budget exWorldChunks exUrl 2 [[1, 2], [3]] rfl
      (by decide)).2 (by decide)).1

/-! ### Analyzer error-shape lemmas (claims C9 and C1) -/

theorem ne_nil_of_isEmpty_false {l : List Char} (h : l.isEmpty = false) :
    l ≠ [] := by
  cases l with
  | nil => cases h
  | cons a t => simp

theorem dlLoop_none_msg (maxB : Nat) :
    ∀ (chunks : List (List Nat)) (total : Nat) (acc : List (List Nat)),
      (dlLoop maxB chunks total acc).1 = none →
      (dlLoop maxB chunks total acc).2.1 = sizeErrMsg maxB := by
  intro chunks
  induction chunks with
  | nil => intro total acc h; cases h
  | cons c rest ih =>
    intro total acc h
    by_cases hc : c.length = 0
    · have hstep : dlLoop maxB (c :: rest) total acc = dlLoop maxB rest total acc := by
        simp [dlLoop, hc]
      rw [hstep] at h ⊢
      exact ih total acc h
    · by_cases hover : maxB < total + c.length
      · simp [dlLoop, hc, hover]
      · have hstep : dlLoop maxB (c :: rest) total acc =
            dlLoop maxB rest (total + c.length) (acc ++ [c]) := by
          simp [dlLoop, hc, hover]
        rw [hstep] at h ⊢
        exact ih _ _ h

theorem downloadPdf_none_error (world : AnalyzerWorld) (url : PyStr) (maxB : Nat)
    (h : (downloadPdf world url maxB).1 = none) :
    (downloadPdf world url maxB).2 ≠ [] := by
  by_cases hu : (pyStrip url).isEmpty
  · have hd : downloadPdf world url maxB = (none, "PDF URLが空です。".toList) := by
      unfold downloadPdf
      rw [if_pos hu]
    rw [hd]
    decide
  · cases hs : world.stream with
    | error e =>
      have hd : downloadPdf world url maxB =
          (none, ("PDFダウンロード失敗: ".toList) ++ e) := by
        unfold downloadPdf
        rw [if_neg hu, hs]
      rw [hd]
      simp
    | ok chunks =>
      have hd : downloadPdf world url maxB =
          ((dlLoop maxB chunks 0 []).1, (dlLoop maxB chunks 0 []).2.1) := by
        unfold downloadPdf
        rw [if_neg hu, hs]
      rw [hd] at h ⊢
      simp only at h ⊢
      rw [dlLoop_none_msg maxB chunks 0 [] h]
      exact sizeErrMsg_ne_nil maxB

/-- The non-exception processing of one delivered Gemini response, as in the
body of the retry loop. -/
def geminiProcess (text : PyStr) (tok : Option Int) :
    Option J × Option Int × PyStr :=
  let raw := pyStrip text
  if raw.isEmpty then (none, none, "Geminiの返答が空です。".toList)
  else
    match jsonLoads raw with
    | some obj => (some obj, tok, [])
    | none =>
      let c1 := pyStripChar (pyStrip raw) '`'
      let c2 :=
        if listStartsWith (pyLower c1) ("json\n".toList) then
          replaceFirst c1 ("json\n".toList) []
        else c1
      match jsonLoads c2 with
      | some obj => (some obj, tok, [])
      | none =>
        (none, none,
          ("GeminiのJSONパースに失敗しました。先頭: ".toList) ++ raw.take 200)

theorem geminiLoop_ok_step (text : PyStr) (tok : Option Int)
    (rest : List (Except PyStr (PyStr × Option Int))) (lastErr : PyStr) :
    geminiLoop (.ok (text, tok) :: rest) lastErr = geminiProcess text tok := rfl

theorem geminiProcess_none_error (text : PyStr) (tok : Option Int)
    (h : (geminiProcess text tok).1 = none) :
    (geminiProcess text tok).2.2 ≠ [] := by
  unfold geminiProcess at h ⊢
  by_cases hr : (pyStrip text).isEmpty
  · simp only [hr, if_true]
    decide
  · simp only [hr, Bool.false_eq_true, if_false] at h ⊢
    cases h1 : jsonLoads (pyStrip text) with
    | some obj =>
      rw [h1] at h
      simp at h
    | none =>
      rw [h1] at h
      simp only at h ⊢
      cases h2 : jsonLoads
          (if listStartsWith
              (pyLower (pyStripChar (pyStrip (pyStrip text)) '`'))
              ("json\n".toList) then
            replaceFirst (pyStripChar (pyStrip (pyStrip text)) '`')
              ("json\n".toList) []
          else pyStripChar (pyStrip (pyStrip text)) '`') with
      | some obj =>
        rw [h2] at h
        simp at h
      | none => simp

theorem geminiLoop_none_error :
    ∀ (atts : List (Except PyStr (PyStr × Option Int))) (lastErr : PyStr),
      (geminiLoop atts lastErr).1 = none → (geminiLoop atts lastErr).2.2 ≠ [] := by
  intro atts
  induction atts with
  | nil =>
    intro lastErr _
    simp [geminiLoop]
  | cons a rest ih =>
    intro lastErr h
    cases a with
    | error e =>
      rw [show geminiLoop (.error e :: rest) lastErr = geminiLoop rest e from rfl] at h ⊢
      exact ih e h
    | ok p =>
      obtain ⟨text, tok⟩ := p
      rw [geminiLoop_ok_step] at h ⊢
      exact geminiProcess_none_error text tok h

theorem gemini_none_error (world : AnalyzerWorld) (key : PyStr)
    (h : (geminiGenerateJson world key).1 = none) :
    (geminiGenerateJson world key).2.2 ≠ [] := by
  unfold geminiGenerateJson at h ⊢
  by_cases h1 : (pyStrip key).isEmpty
  · simp only [h1, if_true]
    decide
  · simp only [h1, Bool.false_eq_true, if_false] at h ⊢
    by_cases h2 : world.genaiAvailable
    · simp only [h2, Bool.not_true, Bool.false_eq_true, if_false] at h ⊢
      exact geminiLoop_none_error _ _ h
    · simp only [h2, Bool.not_false, if_true]
      decide

theorem summarize_shape (world : AnalyzerWorld) (url key model : PyStr)
    (maxB : Nat) :
    (∃ e, e ≠ [] ∧ summarizeKessanPdfToJson world url key model maxB =
      { ok := false, error := e }) ∨
    (∃ tok obj, summarizeKessanPdfToJson world url key model maxB =
      { ok := true, tokens := tok,
        payload := some (successPayload url model tok obj) }) := by
  unfold summarizeKessanPdfToJson
  cases hdl : (downloadPdf world url maxB).1 with
  | none =>
    left
    exact ⟨(downloadPdf world url maxB).2,
      downloadPdf_none_error world url maxB hdl, by simp only [hdl]⟩
  | some bytes =>
    by_cases hx : (extractTextFromPdfBytes world bytes 35).2.isEmpty
    · cases hg : (geminiGenerateJson world key).1 with
      | none =>
        left
        refine ⟨(geminiGenerateJson world key).2.2,
          gemini_none_error world key hg, ?_⟩
        simp only [hdl, hx, Bool.not_true, Bool.false_eq_true, if_false, hg]
      | some obj =>
        right
        refine ⟨(geminiGenerateJson world key).2.1, obj, ?_⟩
        simp only [hdl, hx, Bool.not_true, Bool.false_eq_true, if_false, hg]
    · left
      refine ⟨(extractTextFromPdfBytes world bytes 35).2,
        fun hc => hx (by rw [hc]; rfl), ?_⟩
      have hx2 : (extractTextFromPdfBytes world bytes 35).2.isEmpty = false := by
        cases hb : (extractTextFromPdfBytes world bytes 35).2.isEmpty
        · rfl
        · exact absurd hb hx
      simp only [hdl, hx2, Bool.not_false, if_true]

theorem analyze_shape (env : AnalyzerEnv) (world : AnalyzerWorld) (url : PyStr) :
    (∃ e, e ≠ [] ∧ analyzePdfToJson env world url =
      analyzeFailPayload e (effectiveModel env) url) ∨
    (∃ tok obj, analyzePdfToJson env world url =
      successPayload url (effectiveModel env) tok obj) := by
  unfold analyzePdfToJson
  rcases summarize_shape world url (pyStrip env.geminiApiKeyEnv)
      (effectiveModel env) (effectiveLimit env) with ⟨e, he, hres⟩ | ⟨tok, obj, hres⟩
  · left
    exact ⟨e, he, by simp [hres]⟩
  · right
    exact ⟨tok, obj, by simp [hres]⟩

theorem analyze_of_summarize_fail (env : AnalyzerEnv) (world : AnalyzerWorld)
    (url e : PyStr)
    (h : summarizeKessanPdfToJson world url (pyStrip env.geminiApiKeyEnv)
        (effectiveModel env) (effectiveLimit env) = { ok := false, error := e }) :
    analyzePdfToJson env world url = analyzeFailPayload e (effectiveModel env) url := by
  unfold analyzePdfToJson
  simp [h]

theorem summarize_fail_of_dl (world : AnalyzerWorld) (url key model : PyStr)
    (maxB : Nat) (e : PyStr) (h : downloadPdf world url maxB = (none, e)) :
    summarizeKessanPdfToJson world url key model maxB =
      { ok := false, error := e } := by
  unfold summarizeKessanPdfToJson
  simp only [h]

theorem downloadPdf_empty_url (world : AnalyzerWorld) (url : PyStr) (maxB : Nat)
    (h : (pyStrip url).isEmpty = true) :
    downloadPdf world url maxB = (none, "PDF URLが空です。".toList) := by
  unfold downloadPdf
  rw [if_pos h]

theorem downloadPdf_stream_error (world : AnalyzerWorld) (url e : PyStr)
    (maxB : Nat) (hu : (pyStrip url).isEmpty = false)
    (hs : world.stream = .error e) :
    downloadPdf world url maxB = (none, ("PDFダウンロード失敗: ".toList) ++ e) := by
  unfold downloadPdf
  simp [hu, hs]

theorem downloadPdf_size_exceeded (world : AnalyzerWorld) (url : PyStr)
    (maxB : Nat) (chunks : List (List Nat)) (hu : (pyStrip url).isEmpty = false)
    (hs : world.stream = .ok chunks)
    (hgt : maxB < (chunks.map List.length).sum) :
    downloadPdf world url maxB = (none, sizeErrMsg maxB) := by
  have hd : downloadPdf world url maxB =
      ((dlLoop maxB chunks 0 []).1, (dlLoop maxB chunks 0 []).2.1) := by
    unfold downloadPdf
    simp [hu, hs]
  obtain ⟨k, hk1, _, _⟩ := dlLoop_fail maxB chunks 0 [] (by omega) (by omega)
  rw [hd, hk1]

/-- Claim C9: `analyze_pdf_to_json` always returns a dict with an `ok` key
and never raises (totality of the embedding): the result is either the
error shape — `ok` false, a non-empty `error` string, the effective model
identifier and the input URL — or the success payload with `ok` true; and
the enumerated stage failures (empty URL, download exception, size budget
exceeded) each produce the error shape with their specific message. -/
theorem c9_analyzer_error_shape (env : AnalyzerEnv) (world : AnalyzerWorld)
    (url : PyStr) :
    ((analyzePdfToJson env world url).lookup ("ok".toList)).isSome ∧
    ((∃ e, e ≠ [] ∧
        analyzePdfToJson env world url =
          analyzeFailPayload e (effectiveModel env) url ∧
        (analyzePdfToJson env world url).lookup ("ok".toList) =
          some (.bool false) ∧
        (analyzePdfToJson env world url).lookup ("error".toList) =
          some (.str e) ∧
        (analyzePdfToJson env world url).lookup ("model".toList) =
          some (.str (effectiveModel env)) ∧
        (analyzePdfToJson env world url).lookup ("pdf_url".toList) =
          some (.str url)) ∨
      (∃ tok obj,
        analyzePdfToJson env world url =
          successPayload url (effectiveModel env) tok obj ∧
        (analyzePdfToJson env world url).lookup ("ok".toList) =
          some (.bool true))) ∧
    ((pyStrip url).isEmpty = true →
      analyzePdfToJson env world url =
        analyzeFailPayload ("PDF URLが空です。".toList) (effectiveModel env) url) ∧
    (∀ e, (pyStrip url).isEmpty = false → world.stream = .error e →
      analyzePdfToJson env world url =
        analyzeFailPayload (("PDFダウンロード失敗: ".toList) ++ e)
          (effectiveModel env) url) ∧
    (∀ chunks, (pyStrip url).isEmpty = false → world.stream = .ok chunks →
      effectiveLimit env < (chunks.map List.length).sum →
      analyzePdfToJson env world url =
        analyzeFailPayload (sizeErrMsg (effectiveLimit env))
          (effectiveModel env) url) := by
  refine ⟨?_, ?_, ?_, ?_, ?_⟩
  · rcases analyze_shape env world url with ⟨e, _, hres⟩ | ⟨tok, obj, hres⟩ <;>
      rw [hres] <;> rfl
  · rcases analyze_shape env world url with ⟨e, he, hres⟩ | ⟨tok, obj, hres⟩
    · refine Or.inl ⟨e, he, hres, ?_, ?_, ?_, ?_⟩ <;> (rw [hres]; rfl)
    · refine Or.inr ⟨tok, obj, hres, ?_⟩
      rw [hres]
      rfl
  · intro hu
    exact analyze_of_summarize_fail env world url _
      (summarize_fail_of_dl world url _ _ _ _ (downloadPdf_empty_url world url _ hu))
  · intro e hu hs
    exact analyze_of_summarize_fail env world url _
      (summarize_fail_of_dl world url _ _ _ _ (downloadPdf_stream_error world url e _ hu hs))
  · intro chunks hu hs hgt
    exact analyze_of_summarize_fail env world url _
      (summarize_fail_of_dl world url _ _ _ _
        (downloadPdf_size_exceeded world url _ chunks hu hs hgt))

/-- Analyzer environment fixture (a set API key, defaults otherwise). -/
def exEnv : AnalyzerEnv :=
  { geminiApiKeyEnv := "k".toList, geminiModelEnv := none, maxPdfBytesEnv := none }

/-- Analyzer world fixture whose download raises. -/
def exWorldDlFail : AnalyzerWorld :=
  { stream := .error ("boom".toList), pypdfAvailable := true, pageTexts := .ok [],
    genaiAvailable := true, llmAttempts := [] }

/-- Witness for C9: a concrete run whose download raises produces exactly
the error payload. -/
theorem c9_analyzer_error_shape_witness :
    analyzePdfToJson exEnv exWorldDlFail exUrl =
      analyzeFailPayload (("PDFダウンロード失敗: ".toList) ++ ("boom".toList))
        (effectiveModel exEnv) exUrl :=
  (c9_analyzer_error_shape exEnv exWorldDlFail exUrl).2.2.2.1
    ("boom".toList) (by decide) rfl

theorem analyze_ne_nil (env : AnalyzerEnv) (world : AnalyzerWorld) (url : PyStr) :
    analyzePdfToJson env world url ≠ .nil := by
  rcases analyze_shape env world url with ⟨e, _, h⟩ | ⟨tok, obj, h⟩ <;> rw [h]
  · simp [analyzeFailPayload]
  · simp [successPayload]

theorem isEmpty_false_of_ne_nil {l : List Char} (h : l ≠ []) :
    l.isEmpty = false := by
  cases l with
  | nil => exact absurd rfl h
  | cons a t => rfl

/-- UI fixture: AI enabled and the button pressed, no size budget. -/
def exCtx : FlowCtx :=
  { show_ai_button := true, ai_ok := true, pressed := true,
    max_pdf_bytes := 0, headSize := none }

/-- Claim C1 counterexample: with the download failing (`requests` raises),
`analyze_pdf_to_json` returns an `ok = False` payload and the button
handler still persists it — the Analysis Cache Store holds a record for the
URL whose success flag is false, contradicting "a failed analysis attempt
leaves no record". -/
theorem c1_failed_not_cached_counterexample :
    getCachedAnalysis
        (buttonFlow [] exCtx exEnv exWorldDlFail exUrl ("7203".toList)
          ("t".toList) none).db exUrl ≠ none ∧
    ((getCachedAnalysis (buttonFlow [] exCtx exEnv exWorldDlFail exUrl
        ("7203".toList) ("t".toList) none).db exUrl).getD .nil).lookup
        ("ok".toList) = some (.bool false) := by
  exact ⟨by decide, by decide⟩

/-- Claim C1 (amended): the AI分析 handler persists whatever payload
`analyze_pdf_to_json` returns — failed (`ok = False`) results included. On a
cache miss with the gate satisfied, analysis runs, a record for the URL is
written (its `ok` flag equal to the payload's), and the next attempt for
the same URL is served from the cache without re-running the analysis; only
an empty `doc_url` leaves no record. -/
theorem c1_failed_attempt_persisted (db : Store) (ctx : FlowCtx)
    (env : AnalyzerEnv) (world : AnalyzerWorld) (url code title : PyStr)
    (pub : Option Int) (hurl : url ≠ [])
    (hmiss : getCachedAnalysis db url = none)
    (hpressed : ctx.pressed = true) (hshow : ctx.show_ai_button = true)
    (hai : ctx.ai_ok = true) (hallow : isAllowedPdfUrl url = true)
    (hsize : checkPdfSizeOrWarn ctx.headSize ctx.max_pdf_bytes = true) :
    (buttonFlow db ctx env world url code title pub).analyzeInvoked = true ∧
    getCachedAnalysis (buttonFlow db ctx env world url code title pub).db url =
      some (injectMeta (analyzePdfToJson env world url)
        (savedRow code title pub (analyzePdfToJson env world url))) ∧
    (∀ b, (analyzePdfToJson env world url).lookup ("ok".toList) = some b →
      ((getCachedAnalysis (buttonFlow db ctx env world url code title pub).db
          url).getD .nil).lookup ("ok".toList) = some b) ∧
    (buttonFlow (buttonFlow db ctx env world url code title pub).db
      ctx env world url code title pub).analyzeInvoked = false ∧
    (∃ p, (buttonFlow (buttonFlow db ctx env world url code title pub).db
      ctx env world url code title pub).outcome = .servedFromCache p) := by
  have hne : url.isEmpty = false := isEmpty_false_of_ne_nil hurl
  have hflow : buttonFlow db ctx env world url code title pub =
      { db := saveAnalysis db url code title pub (analyzePdfToJson env world url)
        outcome := .analyzed (analyzePdfToJson env world url)
        analyzeInvoked := true } := by
    unfold buttonFlow buttonFlowUncached
    rw [hne]
    simp only [Bool.not_false, if_true, hmiss]
    simp [hpressed, hshow, hai, hallow, hne, hsize]
  have hdb : (buttonFlow db ctx env world url code title pub).db =
      saveAnalysis db url code title pub (analyzePdfToJson env world url) := by
    rw [hflow]
  have hget0 : getCachedAnalysis
      (saveAnalysis db url code title pub (analyzePdfToJson env world url)) url =
      some (injectMeta (analyzePdfToJson env world url)
        (savedRow code title pub (analyzePdfToJson env world url))) :=
    getCachedAnalysis_saveAnalysis db url code title pub
      (analyzePdfToJson env world url) hurl
  have hget : getCachedAnalysis
      (buttonFlow db ctx env world url code title pub).db url =
      some (injectMeta (analyzePdfToJson env world url)
        (savedRow code title pub (analyzePdfToJson env world url))) := by
    rw [hdb]
    exact hget0
  have htr : (J.obj (injectMeta (analyzePdfToJson env world url)
      (savedRow code title pub (analyzePdfToJson env world url)))).truthy = true := by
    rw [truthy_obj]
    exact injectMeta_ne_nil _ _ (analyze_ne_nil env world url)
  have hflow2 : buttonFlow
      (saveAnalysis db url code title pub (analyzePdfToJson env world url))
      ctx env world url code title pub =
      { db := saveAnalysis db url code title pub (analyzePdfToJson env world url)
        outcome := .servedFromCache (injectMeta (analyzePdfToJson env world url)
          (savedRow code title pub (analyzePdfToJson env world url)))
        analyzeInvoked := false } := by
    unfold buttonFlow
    rw [hne]
    simp only [Bool.not_false, if_true, hget0, htr]
  refine ⟨by rw [hflow], hget, ?_, ?_, ?_⟩
  · intro b hb
    rw [hget]
    simp only [Option.getD_some]
    rw [injectMeta_lookup_isSome _ _ _ (by rw [hb]; rfl), hb]
  · rw [hdb, hflow2]
  · exact ⟨_, by rw [hdb, hflow2]⟩

/-- Witness for the amended C1 at a concrete failing run: analysis is
invoked, the record is persisted, and the second attempt is served from the
cache. -/
theorem c1_failed_attempt_persisted_witness :
    (buttonFlow [] exCtx exEnv exWorldDlFail exUrl ("7203".toList)
      ("t".toList) none).analyzeInvoked = true ∧
    getCachedAnalysis (buttonFlow [] exCtx exEnv exWorldDlFail exUrl
        ("7203".toList) ("t".toList) none).db exUrl =
      some (injectMeta (analyzePdfToJson exEnv exWorldDlFail exUrl)
        (savedRow ("7203".toList) ("t".toList) none
          (analyzePdfToJson exEnv exWorldDlFail exUrl))) ∧
    (∀ b, (analyzePdfToJson exEnv exWorldDlFail exUrl).lookup ("ok".toList) =
        some b →
      ((getCachedAnalysis (buttonFlow [] exCtx exEnv exWorldDlFail exUrl
          ("7203".toList) ("t".toList) none).db exUrl).getD .nil).lookup
          ("ok".toList) = some b) ∧
    (buttonFlow (buttonFlow [] exCtx exEnv exWorldDlFail exUrl ("7203".toList)
        ("t".toList) none).db exCtx exEnv exWorldDlFail exUrl ("7203".toList)
        ("t".toList) none).analyzeInvoked = false ∧
    (∃ p, (buttonFlow (buttonFlow [] exCtx exEnv exWorldDlFail exUrl
        ("7203".toList) ("t".toList) none).db exCtx exEnv exWorldDlFail exUrl
        ("7203".toList) ("t".toList) none).outcome = .servedFromCache p) :=
  c1_failed_attempt_persisted [] exCtx exEnv exWorldDlFail exUrl
    ("7203".toList) ("t".toList) none (by decide) (by decide) rfl rfl rfl
    (by decide) rfl

/-! ### Substring characterizations and the allow-list gate (claim C2) -/

theorem listStartsWith_iff : ∀ (p s : PyStr),
    listStartsWith s p = true ↔ ∃ t, s = p ++ t := by
  intro p
  induction p with
  | nil =>
    intro s
    simp [listStartsWith]
  | cons c ps ih =>
    intro s
    cases s with
    | nil =>
      simp [listStartsWith]
    | cons a s2 =>
      simp only [listStartsWith, Bool.and_eq_true, decide_eq_true_eq, ih s2,
        List.cons_append, List.cons.injEq]
      constructor
      · rintro ⟨rfl, t, rfl⟩
        exact ⟨t, rfl, rfl⟩
      · rintro ⟨t, rfl, rfl⟩
        exact ⟨rfl, t, rfl⟩

theorem containsSub_iff : ∀ (s p : PyStr),
    containsSub s p = true ↔ ∃ pre post, s = pre ++ p ++ post := by
  intro s
  induction s with
  | nil =>
    intro p
    show listStartsWith [] p = true ↔ _
    rw [listStartsWith_iff]
    constructor
    · rintro ⟨t, ht⟩
      exact ⟨[], t, ht⟩
    · rintro ⟨pre, post, h⟩
      rw [List.append_assoc] at h
      exact ⟨pre ++ (p ++ post) |>.drop pre.length, by
        cases pre with
        | nil => simpa using h
        | cons x xs => cases h⟩
  | cons a t ih =>
    intro p
    show (listStartsWith (a :: t) p || containsSub t p) = true ↔ _
    rw [Bool.or_eq_true, listStartsWith_iff, ih]
    constructor
    · rintro (⟨t2, ht⟩ | ⟨pre, post, h⟩)
      · exact ⟨[], t2, by simpa using ht⟩
      · exact ⟨a :: pre, post, by simp [h]⟩
    · rintro ⟨pre, post, h⟩
      cases pre with
      | nil =>
        left
        exact ⟨post, by simpa using h⟩
      | cons x pre2 =>
        right
        simp only [List.cons_append, List.cons.injEq] at h
        exact ⟨pre2, post, h.2⟩

theorem listEndsWith_iff (s p : PyStr) :
    listEndsWith s p = true ↔ ∃ pre, s = pre ++ p := by
  unfold listEndsWith
  rw [listStartsWith_iff]
  constructor
  · rintro ⟨t, ht⟩
    refine ⟨t.reverse, ?_⟩
    have := congrArg List.reverse ht
    simpa [List.reverse_append] using this
  · rintro ⟨pre, rfl⟩
    exact ⟨pre.reverse, by simp [List.reverse_append]⟩

theorem buttonFlowUncached_invoked (db : Store) (ctx : FlowCtx)
    (env : AnalyzerEnv) (world : AnalyzerWorld) (url code title : PyStr)
    (pub : Option Int)
    (h : (buttonFlowUncached db ctx env world url code title pub).analyzeInvoked
      = true) :
    isAllowedPdfUrl url = true := by
  unfold buttonFlowUncached at h
  by_cases hrun : (ctx.pressed &&
      (ctx.show_ai_button && ctx.ai_ok &&
        (!url.isEmpty && isAllowedPdfUrl url))) = true
  · simp only [Bool.and_eq_true] at hrun
    exact hrun.2.2.2
  · simp only [Bool.not_eq_true] at hrun
    simp [hrun] at h

theorem buttonFlow_invoked_allowed (db : Store) (ctx : FlowCtx)
    (env : AnalyzerEnv) (world : AnalyzerWorld) (url code title : PyStr)
    (pub : Option Int) :
    (buttonFlow db ctx env world url code title pub).analyzeInvoked = true →
    isAllowedPdfUrl url = true := by
  unfold buttonFlow
  cases hc : (if !url.isEmpty then getCachedAnalysis db url else none) with
  | some p =>
    by_cases ht : (J.obj p).truthy = true
    · simp only [ht, if_true]
      intro h
      cases h
    · simp only [Bool.not_eq_true] at ht
      simp only [ht, Bool.false_eq_true, if_false]
      exact buttonFlowUncached_invoked db ctx env world url code title pub
  | none => exact buttonFlowUncached_invoked db ctx env world url code title pub

/-- Claim C2 counterexample: the claim's "if and only if" fails — the code's
gate is a substring test, so a URL on a foreign host whose path merely
mentions the filing host passes `_is_allowed_pdf_url` while failing the
spec's host-parsed gate. -/
theorem c2_gate_counterexample :
    isAllowedPdfUrl ("https://evil.example/release.tdnet.info.pdf".toList) = true ∧
    specAllowedPdfUrl ("https://evil.example/release.tdnet.info.pdf".toList) = false :=
  ⟨by decide, by decide⟩

/-- Claim C2 (amended): the download/summarization step runs only for URLs
passing `_is_allowed_pdf_url`; and that gate passes exactly when the
stripped URL is non-empty and its lower-casing either contains
`release.tdnet.info` as a substring and ends in `.pdf`, or contains all of
`webapi.yanoshin.jp/rd.php?`, `release.tdnet.info` and `.pdf` as substrings
— substring tests, not host parsing or wrapper unwrapping. -/
theorem c2_gate_amended :
    (∀ (db : Store) (ctx : FlowCtx) (env : AnalyzerEnv) (world : AnalyzerWorld)
      (url code title : PyStr) (pub : Option Int),
      (buttonFlow db ctx env world url code title pub).analyzeInvoked = true →
      isAllowedPdfUrl url = true) ∧
    (∀ u, isAllowedPdfUrl u = true ↔
      (pyStrip u ≠ [] ∧
        (((∃ pre post, pyLower (pyStrip u) =
              pre ++ ("release.tdnet.info".toList) ++ post) ∧
          (∃ pre, pyLower (pyStrip u) = pre ++ (".pdf".toList))) ∨
         ((∃ pre post, pyLower (pyStrip u) =
              pre ++ ("webapi.yanoshin.jp/rd.php?".toList) ++ post) ∧
          (∃ pre post, pyLower (pyStrip u) =
              pre ++ ("release.tdnet.info".toList) ++ post) ∧
          (∃ pre post, pyLower (pyStrip u) =
              pre ++ (".pdf".toList) ++ post))))) := by
  constructor
  · exact buttonFlow_invoked_allowed
  · intro u
    unfold isAllowedPdfUrl
    by_cases hu : (pyStrip u).isEmpty
    · simp only [hu, if_true]
      have : pyStrip u = [] := by
        cases hl : pyStrip u with
        | nil => rfl
        | cons a t => rw [hl] at hu; cases hu
      simp [this]
    · simp only [hu, Bool.false_eq_true, if_false]
      have hne : pyStrip u ≠ [] := ne_nil_of_isEmpty_false (by
        cases hb : (pyStrip u).isEmpty
        · rfl
        · exact absurd hb hu)
      simp only [ne_eq, hne, not_false_eq_true, true_and]
      by_cases h1 : (containsSub (pyLower (pyStrip u)) ("release.tdnet.info".toList) &&
          listEndsWith (pyLower (pyStrip u)) (".pdf".toList)) = true
      · simp only [h1, if_true]
        simp only [Bool.and_eq_true] at h1
        rw [containsSub_iff, listEndsWith_iff] at h1
        simp only [true_iff]
        exact Or.inl h1
      · simp only [Bool.not_eq_true] at h1
        simp only [h1, Bool.false_eq_true, if_false]
        by_cases h2 : (containsSub (pyLower (pyStrip u))
            ("webapi.yanoshin.jp/rd.php?".toList) &&
            containsSub (pyLower (pyStrip u)) ("release.tdnet.info".toList) &&
            containsSub (pyLower (pyStrip u)) (".pdf".toList)) = true
        · simp only [h2, if_true, true_iff]
          simp only [Bool.and_eq_true] at h2
          rw [containsSub_iff] at h2
          right
          refine ⟨h2.1.1, ?_, ?_⟩
          · rw [← containsSub_iff]
            exact h2.1.2
          · rw [← containsSub_iff]
            exact h2.2
        · simp only [Bool.not_eq_true] at h2
          simp only [h2, Bool.false_eq_true, if_false, false_iff]
          rintro (⟨ha, hb⟩ | ⟨ha, hb, hc2⟩)
          · rw [← containsSub_iff] at ha
            rw [← listEndsWith_iff] at hb
            rw [Bool.and_eq_false_iff] at h1
            rcases h1 with h1 | h1
            · rw [h1] at ha; cases ha
            · rw [h1] at hb; cases hb
          · rw [← containsSub_iff] at ha hb hc2
            rw [Bool.and_eq_false_iff, Bool.and_eq_false_iff] at h2
            rcases h2 with (h2 | h2) | h2
            · rw [h2] at ha; cases ha
            · rw [h2] at hb; cases hb
            · rw [h2] at hc2; cases hc2

/-- Witness for the amended C2 gating at a concrete run that invoked the
analyzer. -/
theorem c2_gate_amended_witness : isAllowedPdfUrl exUrl = true :=
  c2_gate_amended.1 [] exCtx exEnv exWorldDlFail exUrl ("7203".toList)
    ("t".toList) none (by decide)

/-! ### Claim C3: put/get round-trip -/

/-- Claim C3 counterexample: saving the payload `\x7b"ok": true\x7d` under a
URL with security code `7203` and reading it back returns a payload with
`code4` (from the DB column, back-filled by `get_cached_analysis`) and
`doc_type` added — the round-trip is not key-for-key exact. -/
theorem c3_roundtrip_exact_counterexample :
    getCachedAnalysis
        (saveAnalysis [] exUrl ("7203".toList) ("t".toList) none
          (.cons ("ok".toList) (.bool true) .nil)) exUrl =
      some (.cons ("ok".toList) (.bool true)
        (.cons ("code4".toList) (.str ("7203".toList))
          (.cons ("doc_type".toList) (.str ("other".toList)) .nil))) ∧
    (JObj.cons ("ok".toList) (.bool true)
        (.cons ("code4".toList) (.str ("7203".toList))
          (.cons ("doc_type".toList) (.str ("other".toList)) .nil))) ≠
      .cons ("ok".toList) (.bool true) .nil :=
  ⟨by decide, by decide⟩

/-- Claim C3 (amended): `put` followed immediately by `get` on the same
non-empty URL returns a payload that agrees with the stored payload on
every key the payload had — no key is removed or changed — but
`get_cached_analysis` may additionally back-fill the metadata keys
(`model`, `tokens`, `schema_version`, `code4`, `published_date_jst`,
`doc_type`) when they are absent from the payload and the corresponding
column is truthy. -/
theorem c3_roundtrip_amended (db : Store) (u code title : PyStr)
    (pub : Option Int) (payload : JObj) (hu : u ≠ []) :
    ∃ out,
      getCachedAnalysis (saveAnalysis db u code title pub payload) u =
        some out ∧
      (∀ k, (payload.lookup k).isSome → out.lookup k = payload.lookup k) ∧
      (∀ k, (out.lookup k).isSome → (payload.lookup k).isSome ∨ k ∈ metaKeys) :=
  ⟨injectMeta payload (savedRow code title pub payload),
    getCachedAnalysis_saveAnalysis db u code title pub payload hu,
    fun k hk => injectMeta_lookup_isSome payload _ k hk,
    fun k hk => injectMeta_superset payload _ k hk⟩

/-- Witness for the amended C3 at a concrete payload. -/
theorem c3_roundtrip_amended_witness :
    ∃ out,
      getCachedAnalysis
          (saveAnalysis [] exUrl ("7203".toList) ("t".toList) none
            (.cons ("ok".toList) (.bool true) .nil)) exUrl = some out ∧
      (∀ k, ((JObj.cons ("ok".toList) (.bool true) .nil).lookup k).isSome →
        out.lookup k = (JObj.cons ("ok".toList) (.bool true) .nil).lookup k) ∧
      (∀ k, (out.lookup k).isSome →
        ((JObj.cons ("ok".toList) (.bool true) .nil).lookup k).isSome ∨
          k ∈ metaKeys) :=
  c3_roundtrip_amended [] exUrl ("7203".toList) ("t".toList) none
    (.cons ("ok".toList) (.bool true) .nil) (by decide)

/-! ### Claim C4: no URL unwrapping in the normalizer -/

/-- The claim's own example record: a redirect-wrapped document URL. -/
def c4raw : JObj :=
  .cons ("Tdnet".toList)
    (.obj (.cons ("document_url".toList)
      (.str ("https://host/rd.php?https://filing-host/x.pdf".toList)) .nil)) .nil

/-- Claim C4 counterexample: for the claim's example wrapped URL
`https://host/rd.php?https://filing-host/x.pdf`, `_normalize_item` returns
the wrapped URL verbatim, not the unwrapped target
`https://filing-host/x.pdf`. -/
theorem c4_unwrap_counterexample :
    (normalizeItem c4raw).doc_url =
      "https://host/rd.php?https://filing-host/x.pdf".toList ∧
    ("https://host/rd.php?https://filing-host/x.pdf".toList : PyStr) ≠
      "https://filing-host/x.pdf".toList :=
  ⟨by decide, by decide⟩

/-- Claim C4 (amended): the Field Normalizer performs no unwrapping at all —
whenever the picked wrapper dict carries a non-empty string under
`document_url`, the canonical `doc_url` is that string verbatim (stripped),
redirect-wrapped or not. -/
theorem c4_no_unwrap (raw : JObj) (u : PyStr)
    (h : (pickTdnetDict raw).lookup ("document_url".toList) = some (.str u))
    (hne : u ≠ []) :
    (normalizeItem raw).doc_url = pyStrip u := by
  unfold normalizeItem
  simp only [jGet, h, Option.getD_some, pyOr]
  have ht : (J.str u).truthy = true := by
    simp [J.truthy, isEmpty_false_of_ne_nil hne]
  rw [if_pos ht]
  rfl

/-- Witness for the amended C4 at the claim's example record. -/
theorem c4_no_unwrap_witness :
    (normalizeItem c4raw).doc_url =
      pyStrip ("https://host/rd.php?https://filing-host/x.pdf".toList) :=
  c4_no_unwrap c4raw ("https://host/rd.php?https://filing-host/x.pdf".toList)
    (by decide) (by decide)

/-! ### Claim C5: security-code normalization -/

/-- The raw record driving the C5 counterexample: a non-numeric company
code. -/
def c5raw : JObj :=
  .cons ("Tdnet".toList)
    (.obj (.cons ("company_code".toList) (.str ("X12".toList)) .nil)) .nil

/-- Claim C5 counterexample: app.py's `_code4` falls back to returning its
input unchanged, so the app-normalized `code` field can be `"X12"` — neither
empty nor four digits (note tdnet's own `code4` for the same record is
empty). -/
theorem c5_code4_counterexample :
    (normalizeAppItem (normalizeItem c5raw)).code = "X12".toList ∧
    appCode4 ("X12".toList) = "X12".toList ∧
    ¬(("X12".toList : PyStr) = [] ∨
      (("X12".toList : PyStr).length = 4 ∧
        ("X12".toList : PyStr).all isAsciiDigit = true)) :=
  ⟨by decide, by decide, by decide⟩

theorem code4FromCompanyCode_invariant (s : PyStr) :
    code4FromCompanyCode s = [] ∨
    ((code4FromCompanyCode s).length = 4 ∧
      (code4FromCompanyCode s).all isAsciiDigit = true) := by
  unfold code4FromCompanyCode
  by_cases hd : pyIsDigit (pyStrip s) = true
  · have hall : ∀ c ∈ pyStrip s, isAsciiDigit c = true := by
      unfold pyIsDigit at hd
      rw [Bool.and_eq_true, List.all_eq_true] at hd
      exact fun c hc => hd.2 c hc
    simp only [hd, Bool.not_true, Bool.false_eq_true, if_false]
    by_cases h5 : ((pyStrip s).length = 5 && listEndsWith (pyStrip s) ['0']) = true
    · right
      rw [if_pos h5]
      rw [Bool.and_eq_true, decide_eq_true_eq] at h5
      constructor
      · rw [List.length_dropLast, h5.1]
      · rw [List.all_eq_true]
        exact fun c hc => hall c (List.dropLast_subset _ hc)
    · simp only [h5, Bool.false_eq_true, if_false]
      by_cases h4 : 4 ≤ (pyStrip s).length
      · right
        rw [if_pos h4]
        constructor
        · rw [List.length_take]
          omega
        · rw [List.all_eq_true]
          exact fun c hc => hall c (List.take_subset _ _ hc)
      · left
        rw [if_neg h4]
  · left
    simp only [Bool.not_eq_true] at hd
    simp [hd]

/-- Claim C5 (amended): tdnet's `_code4_from_company_code` keeps the
invariant — its result is empty or exactly four (ASCII) digits: a 5-digit
code ending in `0` is stripped of the zero, an all-digit code of length at
least 4 is cut to its first four digits, anything else (including codes
whose first four characters are digits but which contain a non-digit) gives
the empty string. app.py's `_code4` agrees on the stripping case and takes
the first four characters whenever those four are digits, but in every
remaining case it returns the stripped input unchanged — so the
empty-or-4-digit invariant does not hold for the app-side `code` field. -/
theorem c5_code4_amended :
    (∀ s, code4FromCompanyCode s = [] ∨
      ((code4FromCompanyCode s).length = 4 ∧
        (code4FromCompanyCode s).all isAsciiDigit = true)) ∧
    (∀ s, pyIsDigit (pyStrip s) = true → (pyStrip s).length = 5 →
      listEndsWith (pyStrip s) ['0'] = true →
      code4FromCompanyCode s = (pyStrip s).dropLast ∧
      appCode4 s = (pyStrip s).dropLast) ∧
    (∀ s, ¬((pyStrip s).length = 5 ∧ pyIsDigit (pyStrip s) = true ∧
        listEndsWith (pyStrip s) ['0'] = true) →
      4 ≤ (pyStrip s).length → pyIsDigit ((pyStrip s).take 4) = true →
      appCode4 s = (pyStrip s).take 4) ∧
    (∀ s, ¬((pyStrip s).length = 5 ∧ pyIsDigit (pyStrip s) = true ∧
        listEndsWith (pyStrip s) ['0'] = true) →
      ¬(4 ≤ (pyStrip s).length ∧ pyIsDigit ((pyStrip s).take 4) = true) →
      appCode4 s = pyStrip s) := by
  refine ⟨code4FromCompanyCode_invariant, ?_, ?_, ?_⟩
  · intro s hd h5 h0
    constructor
    · unfold code4FromCompanyCode
      simp [hd, h5, h0]
    · unfold appCode4
      simp [hd, h5, h0]
  · intro s hnot h4 hd4
    unfold appCode4
    have hc : ((pyStrip s).length = 5 && pyIsDigit (pyStrip s) &&
        listEndsWith (pyStrip s) ['0']) = false := by
      rw [Bool.and_eq_false_iff, Bool.and_eq_false_iff]
      by_cases e1 : (pyStrip s).length = 5
      · by_cases e2 : pyIsDigit (pyStrip s) = true
        · by_cases e3 : listEndsWith (pyStrip s) ['0'] = true
          · exact absurd ⟨e1, e2, e3⟩ hnot
          · right
            cases hb : listEndsWith (pyStrip s) ['0']
            · rfl
            · exact absurd hb e3
        · left; right
          cases hb : pyIsDigit (pyStrip s)
          · rfl
          · exact absurd hb e2
      · left; left
        simp [e1]
    simp only [hc, Bool.false_eq_true, if_false]
    simp [h4, hd4]
  · intro s hnot hnot4
    unfold appCode4
    have hc : ((pyStrip s).length = 5 && pyIsDigit (pyStrip s) &&
        listEndsWith (pyStrip s) ['0']) = false := by
      rw [Bool.and_eq_false_iff, Bool.and_eq_false_iff]
      by_cases e1 : (pyStrip s).length = 5
      · by_cases e2 : pyIsDigit (pyStrip s) = true
        · by_cases e3 : listEndsWith (pyStrip s) ['0'] = true
          · exact absurd ⟨e1, e2, e3⟩ hnot
          · right
            cases hb : listEndsWith (pyStrip s) ['0']
            · rfl
            · exact absurd hb e3
        · left; right
          cases hb : pyIsDigit (pyStrip s)
          · rfl
          · exact absurd hb e2
      · left; left
        simp [e1]
    have hc2 : (4 ≤ (pyStrip s).length && pyIsDigit ((pyStrip s).take 4)) = false := by
      rw [Bool.and_eq_false_iff]
      by_cases e1 : 4 ≤ (pyStrip s).length
      · by_cases e2 : pyIsDigit ((pyStrip s).take 4) = true
        · exact absurd ⟨e1, e2⟩ hnot4
        · right
          cases hb : pyIsDigit ((pyStrip s).take 4)
          · rfl
          · exact absurd hb e2
      · left
        simp [e1]
    simp only [hc, hc2, Bool.false_eq_true, if_false]

/-- Witness for the amended C5 at concrete codes: the stripping case, the
take-4 case, and the unchanged fallback. -/
theorem c5_code4_amended_witness :
    code4FromCompanyCode ("45230".toList) = "4523".toList ∧
    appCode4 ("1234abc".toList) = "1234".toList ∧
    appCode4 ("X12".toList) = "X12".toList := by
  refine ⟨?_, ?_, ?_⟩
  · have h := (c5_code4_amended.2.1 ("45230".toList) (by decide) (by decide)
      (by decide)).1
    rw [h]
    decide
  · have h := c5_code4_amended.2.2.1 ("1234abc".toList) (by decide) (by decide)
      (by decide)
    rw [h]
    decide
  · have h := c5_code4_amended.2.2.2 ("X12".toList) (by decide) (by decide)
    rw [h]
    decide

/-! ### Claim C6: fetch totality -/

theorem getJsonLoop_all_none :
    ∀ (atts : List (Option J)), atts.all Option.isNone = true →
      getJsonLoop atts = itemsEmptyObj := by
  intro atts
  induction atts with
  | nil => intro _; rfl
  | cons a rest ih =>
    intro h
    rw [List.all_cons, Bool.and_eq_true] at h
    cases a with
    | none => exact ih h.2
    | some d => cases h.1

/-- Claim C6: `fetch_tdnet_items` is total and never propagates an error —
when every HTTP attempt fails the result is empty; when the body has no
list under `items` the result is empty; and for a well-formed `items` list
exactly the mapping-shaped elements are normalized, everything else is
skipped silently. -/
theorem c6_fetch_items_total (code : Option PyStr) (world : TdnetWorld) :
    ((world.httpAttempts.take 3).all Option.isNone = true →
      fetchTdnetItems code world = []) ∧
    ((∀ xs, (getJson world).lookup ("items".toList) ≠ some (.arr xs)) →
      fetchTdnetItems code world = []) ∧
    (∀ xs, (getJson world).lookup ("items".toList) = some (.arr xs) →
      fetchTdnetItems code world =
        xs.toList.filterMap (fun j =>
          match j with
          | .obj o => some (normalizeItem o)
          | _ => none)) := by
  have heq : fetchTdnetItems code world =
      (match (getJson world).lookup ("items".toList) with
       | some (.arr xs) =>
         xs.toList.filterMap (fun j =>
           match j with
           | .obj o => some (normalizeItem o)
           | _ => none)
       | _ => []) := rfl
  refine ⟨?_, ?_, ?_⟩
  · intro h
    have hg : getJson world = itemsEmptyObj := getJsonLoop_all_none _ h
    rw [heq, hg]
    rfl
  · intro h
    rw [heq]
    cases hl : (getJson world).lookup ("items".toList) with
    | none => rfl
    | some v =>
      cases v with
      | arr xs => exact absurd hl (h xs)
      | null => rfl
      | bool b => rfl
      | num n => rfl
      | str s => rfl
      | obj o => rfl
  · intro xs hl
    rw [heq, hl]

/-- A fetch world whose three attempts all raise. -/
def exWorldHttpFail : TdnetWorld := { httpAttempts := [none, none, none] }

/-- Witness for C6: all attempts failing yields the empty list. -/
theorem c6_fetch_items_total_witness : fetchTdnetItems none exWorldHttpFail = [] :=
  (c6_fetch_items_total none exWorldHttpFail).1 (by decide)

/-! ### Claim C10: corrupt cache rows read as misses -/

/-- Claim C10: a stored row whose `payload_json` does not parse as JSON, or
parses to a non-dict value, makes `get_cached_analysis` return `none` — at
the public interface a corrupt entry is indistinguishable from a miss. -/
theorem c10_corrupt_cache_miss (db : Store) (u : PyStr) (row : Row)
    (hrow : storeGet db u = some row)
    (hcorrupt : jsonLoads row.payload_json = none ∨
      ∃ v, jsonLoads row.payload_json = some v ∧ ∀ o, v ≠ .obj o) :
    getCachedAnalysis db u = none := by
  by_cases hu : u.isEmpty
  · unfold getCachedAnalysis
    rw [if_pos hu]
  · have heq : getCachedAnalysis db u =
        (match jsonLoads row.payload_json with
         | some (.obj p) => some (injectMeta p row)
         | some _ => none
         | none => none) := by
      unfold getCachedAnalysis
      rw [if_neg hu, hrow]
    rw [heq]
    rcases hcorrupt with h | ⟨v, hv, hno⟩
    · rw [h]
    · rw [hv]
      cases v with
      | obj o => exact absurd rfl (hno o)
      | null => rfl
      | bool b => rfl
      | num n => rfl
      | str s => rfl
      | arr a => rfl

/-- A row whose stored payload is not JSON. -/
def corruptRow : Row :=
  { code := [], title := [], published_at := [],
    payload_json := "not json".toList, created_at := [], model := none,
    tokens := none, schema_version := none, code4 := none,
    published_date_jst := none, doc_type := none }

/-- Witness for C10 at a concrete corrupt row. -/
theorem c10_corrupt_cache_miss_witness :
    getCachedAnalysis [(exUrl, corruptRow)] exUrl = none :=
  c10_corrupt_cache_miss [(exUrl, corruptRow)] exUrl corruptRow (by decide)
    (Or.inl (by decide))

/-! ### Claim C8: timestamp normalization -/

theorem digitChar_not_ws (n : Nat) : (digitChar n).isWhitespace = false := by
  unfold digitChar
  split <;> decide

theorem digitChar_ne_Z (n : Nat) : ¬(digitChar n = 'Z') := by
  unfold digitChar
  split <;> decide

/-- The zero-padded `YYYY-MM-DD HH:MM:SS` rendering of a civil datetime,
followed by an arbitrary tail (`[]` for the naive form, an offset suffix
otherwise). -/
def fmtCore (y m d h mi s : Nat) (tail : List Char) : PyStr :=
  digitChar (y / 1000) :: digitChar (y / 100 % 10) :: digitChar (y / 10 % 10) ::
  digitChar (y % 10) :: '-' :: digitChar (m / 10) :: digitChar (m % 10) :: '-' ::
  digitChar (d / 10) :: digitChar (d % 10) :: ' ' :: digitChar (h / 10) ::
  digitChar (h % 10) :: ':' :: digitChar (mi / 10) :: digitChar (mi % 10) :: ':' ::
  digitChar (s / 10) :: digitChar (s % 10) :: tail

/-- The naive zero-padded `YYYY-MM-DD HH:MM:SS` string. -/
def fmtNaive (y m d h mi s : Nat) : PyStr := fmtCore y m d h mi s []

theorem parse2dig_digits (n : Nat) (hn : n ≤ 99) (r : List Char) :
    parse2dig (digitChar (n / 10) :: digitChar (n % 10) :: r) = some (n, r) := by
  have h1 : n / 10 < 10 := by omega
  have h2 : n % 10 < 10 := by omega
  have hstep : parse2dig (digitChar (n / 10) :: digitChar (n % 10) :: r) =
      (if isAsciiDigit (digitChar (n / 10)) && isAsciiDigit (digitChar (n % 10)) then
        some (charVal (digitChar (n / 10)) * 10 + charVal (digitChar (n % 10)), r)
      else none) := rfl
  rw [hstep, if_pos (by rw [isAsciiDigit_digitChar h1, isAsciiDigit_digitChar h2]; rfl)]
  rw [charVal_digitChar h1, charVal_digitChar h2]
  have hv : n / 10 * 10 + n % 10 = n := by omega
  rw [hv]

theorem parse4dig_digits (y : Nat) (hy : y ≤ 9999) (r : List Char) :
    parse4dig (digitChar (y / 1000) :: digitChar (y / 100 % 10) ::
      digitChar (y / 10 % 10) :: digitChar (y % 10) :: r) = some (y, r) := by
  have h1 : y / 1000 < 10 := by omega
  have h2 : y / 100 % 10 < 10 := by omega
  have h3 : y / 10 % 10 < 10 := by omega
  have h4 : y % 10 < 10 := by omega
  have hstep : parse4dig (digitChar (y / 1000) :: digitChar (y / 100 % 10) ::
      digitChar (y / 10 % 10) :: digitChar (y % 10) :: r) =
      (if isAsciiDigit (digitChar (y / 1000)) && isAsciiDigit (digitChar (y / 100 % 10)) &&
          isAsciiDigit (digitChar (y / 10 % 10)) && isAsciiDigit (digitChar (y % 10)) then
        some (charVal (digitChar (y / 1000)) * 1000 + charVal (digitChar (y / 100 % 10)) * 100 +
          charVal (digitChar (y / 10 % 10)) * 10 + charVal (digitChar (y % 10)), r)
      else none) := rfl
  rw [hstep, if_pos (by rw [isAsciiDigit_digitChar h1, isAsciiDigit_digitChar h2,
    isAsciiDigit_digitChar h3, isAsciiDigit_digitChar h4]; rfl)]
  rw [charVal_digitChar h1, charVal_digitChar h2, charVal_digitChar h3,
    charVal_digitChar h4]
  have hv : y / 1000 * 1000 + y / 100 % 10 * 100 + y / 10 % 10 * 10 + y % 10 = y := by
    omega
  rw [hv]

theorem replaceAllChar_cons (a : Char) (l : List Char) (ch : Char) (t : List Char) :
    replaceAllChar (a :: l) ch t = (if a = ch then t else [a]) ++ replaceAllChar l ch t := rfl

theorem replaceAllChar_nil (ch : Char) (t : List Char) : replaceAllChar [] ch t = [] := rfl

theorem replaceAllChar_fmtCore (y m d h mi s : Nat) (tail t : List Char) :
    replaceAllChar (fmtCore y m d h mi s tail) 'Z' t =
      fmtCore y m d h mi s (replaceAllChar tail 'Z' t) := by
  simp [fmtCore, replaceAllChar_cons, digitChar_ne_Z]

theorem pyStrip_cons_snoc (a b : Char) (l : List Char) (ha : a.isWhitespace = false)
    (hb : b.isWhitespace = false) : pyStrip (a :: (l ++ [b])) = a :: (l ++ [b]) := by
  unfold pyStrip
  rw [List.dropWhile_cons_of_neg (by simp [ha])]
  rw [show (a :: (l ++ [b])).reverse = b :: (l.reverse ++ [a]) by simp]
  rw [List.dropWhile_cons_of_neg (by simp [hb])]
  simp

theorem pyStrip_fmtNaive (y m d h mi s : Nat) :
    pyStrip (fmtNaive y m d h mi s) = fmtNaive y m d h mi s :=
  pyStrip_cons_snoc (digitChar (y / 1000)) (digitChar (s % 10))
    (digitChar (y / 100 % 10) :: digitChar (y / 10 % 10) :: digitChar (y % 10) :: '-' ::
     digitChar (m / 10) :: digitChar (m % 10) :: '-' :: digitChar (d / 10) ::
     digitChar (d % 10) :: ' ' :: digitChar (h / 10) :: digitChar (h % 10) :: ':' ::
     digitChar (mi / 10) :: digitChar (mi % 10) :: ':' :: digitChar (s / 10) :: [])
    (digitChar_not_ws _) (digitChar_not_ws _)

theorem pyStrip_fmtOff (y m d h mi s : Nat) :
    pyStrip (fmtCore y m d h mi s ('+' :: '0' :: '0' :: ':' :: '0' :: '0' :: [])) =
      fmtCore y m d h mi s ('+' :: '0' :: '0' :: ':' :: '0' :: '0' :: []) :=
  pyStrip_cons_snoc (digitChar (y / 1000)) '0'
    (digitChar (y / 100 % 10) :: digitChar (y / 10 % 10) :: digitChar (y % 10) :: '-' ::
     digitChar (m / 10) :: digitChar (m % 10) :: '-' :: digitChar (d / 10) ::
     digitChar (d % 10) :: ' ' :: digitChar (h / 10) :: digitChar (h % 10) :: ':' ::
     digitChar (mi / 10) :: digitChar (mi % 10) :: ':' :: digitChar (s / 10) ::
     digitChar (s % 10) :: '+' :: '0' :: '0' :: ':' :: '0' :: [])
    (digitChar_not_ws _) (by decide)

theorem daysInMonth_le31 (y m : Nat) : daysInMonth y m ≤ 31 := by
  unfold daysInMonth
  split
  · split <;> decide
  · split <;> decide

theorem fromIso_fmtCore (y m d h mi s : Nat)
    (hy1 : 1 ≤ y) (hy : y ≤ 9999) (hm1 : 1 ≤ m) (hm : m ≤ 12)
    (hd1 : 1 ≤ d) (hd : d ≤ daysInMonth y m) (hh : h ≤ 23) (hmi : mi ≤ 59)
    (hs : s ≤ 59) :
    fromIso (fmtNaive y m d h mi s) = some (civilSecs y m d h mi s, none) ∧
    fromIso (fmtCore y m d h mi s ('+' :: '0' :: '0' :: ':' :: '0' :: '0' :: [])) =
      some (civilSecs y m d h mi s, some 0) := by
  have h2m := parse2dig_digits m (by omega)
  have h2d := parse2dig_digits d (by have := daysInMonth_le31 y m; omega)
  have h2h := parse2dig_digits h (by omega)
  have h2mi := parse2dig_digits mi (by omega)
  have h2s := parse2dig_digits s (by omega)
  have h4y := parse4dig_digits y hy
  have h00 : ∀ r : List Char, parse2dig ('0' :: '0' :: r) = some (0, r) := fun r => rfl
  constructor
  · simp [fmtNaive, fmtCore, fromIso, h4y, h2m, h2d, h2h, h2mi, h2s,
      hy1, hm1, hm, hd1, hd, hh, hmi, hs]
  · simp [fmtCore, fromIso, h4y, h2m, h2d, h2h, h2mi, h2s, h00,
      hy1, hm1, hm, hd1, hd, hh, hmi, hs]

/-- **C8**: for every timestamp string of the zero-padded form
`YYYY-MM-DD HH:MM:SS` with no zone indicator, `_parse_dt_maybe` produces the
UTC timestamp equal to the input read as civil time minus 9 hours (fixed
+09:00 assumption: the same string with an explicit `+00:00` offset parses to
exactly 32400 seconds more); on total parse failure the timestamp is absent
(`none`), and the recency filter of `apply_filters` never excludes an item
whose timestamp is absent — its verdict is independent of the cutoff. -/
theorem c8_naive_jst :
    (∀ y m d h mi s : Nat, 1 ≤ y → y ≤ 9999 → 1 ≤ m → m ≤ 12 → 1 ≤ d →
        d ≤ daysInMonth y m → h ≤ 23 → mi ≤ 59 → s ≤ 59 →
      parseDtMaybe (some (fmtNaive y m d h mi s)) =
          some (civilSecs y m d h mi s - 32400) ∧
        parseDtMaybe
            (some (fmtCore y m d h mi s ('+' :: '0' :: '0' :: ':' :: '0' :: '0' :: []))) =
          some (civilSecs y m d h mi s)) ∧
    (∀ v : PyStr,
        fromIso (replaceAllChar (pyStrip v) 'Z' ['+', '0', '0', ':', '0', '0']) = none →
        parseDtMaybe (some v) = none) ∧
    (∀ (uk od : Bool) (c c' : Int) (it : AppItem), it.published_at = none →
        keepItem uk od c it = keepItem uk od c' it) := by
  refine ⟨?_, ?_, ?_⟩
  · intro y m d h mi s hy1 hy hm1 hm hd1 hd hh hmi hs
    have hiso := fromIso_fmtCore y m d h mi s hy1 hy hm1 hm hd1 hd hh hmi hs
    have hstrip1 := pyStrip_fmtNaive y m d h mi s
    have hstrip2 := pyStrip_fmtOff y m d h mi s
    have hrep1 : replaceAllChar (fmtNaive y m d h mi s) 'Z' ['+', '0', '0', ':', '0', '0'] =
        fmtNaive y m d h mi s :=
      replaceAllChar_fmtCore y m d h mi s [] ['+', '0', '0', ':', '0', '0']
    have hrep2 : replaceAllChar
        (fmtCore y m d h mi s ('+' :: '0' :: '0' :: ':' :: '0' :: '0' :: [])) 'Z'
        ['+', '0', '0', ':', '0', '0'] =
        fmtCore y m d h mi s ('+' :: '0' :: '0' :: ':' :: '0' :: '0' :: []) :=
      replaceAllChar_fmtCore y m d h mi s ('+' :: '0' :: '0' :: ':' :: '0' :: '0' :: [])
        ['+', '0', '0', ':', '0', '0']
    have hne1 : (fmtNaive y m d h mi s).isEmpty = false := rfl
    have hne2 : (fmtCore y m d h mi s
        ('+' :: '0' :: '0' :: ':' :: '0' :: '0' :: [])).isEmpty = false := rfl
    constructor
    · simp [parseDtMaybe, hne1, hstrip1, hrep1, hiso.1]
    · simp [parseDtMaybe, hne2, hstrip2, hrep2, hiso.2]
  · intro v hfail
    by_cases h1 : v.isEmpty
    · simp [parseDtMaybe, h1]
    · by_cases h2 : (pyStrip v).isEmpty
      · simp [parseDtMaybe, h1, h2]
      · simp [parseDtMaybe, h1, h2, hfail]
  · intro uk od c c' it hpub
    simp [keepItem, hpub]

/-- Witness for C8 at 2026-02-06 20:00:00 JST, which is epoch 1770375600 UTC. -/
theorem c8_naive_jst_witness :
    parseDtMaybe (some (fmtNaive 2026 2 6 20 0 0)) =
        some (civilSecs 2026 2 6 20 0 0 - 32400) ∧
      civilSecs 2026 2 6 20 0 0 - 32400 = 1770375600 :=
  ⟨(c8_naive_jst.1 2026 2 6 20 0 0 (by decide) (by decide) (by decide) (by decide)
      (by decide) (by decide) (by decide) (by decide) (by decide)).1, by decide⟩
